import Mathlib

/-!
# 3d-phone-show3: the model loader and the "next phone" cycle of `src/main.js`

A shallow embedding of `loadModels`, `createPhoneInfoUI`, `updatePhoneInfo` and
`showNextModel`, and of the bounding-box normalisation done in the load-success
callback.

* The module-level variables `phoneModels`, `currentModelIndex` and the part of the
  DOM and of the orbit controls the functions touch are the fields of `AppState`.
* `phoneModels` is a JavaScript array with holes: a `List (Option PhoneModel)` where
  `none` is a slot that reads as `undefined`.
* One `loadModels` call is a `LoadBatch`: the closure variables `phonesData` and
  `loadedCount`, and the `loader.load` requests it issued.  The callbacks of the
  requests run after the `forEach` has finished, in any order; a completion order is a
  list of `(index, outcome)` events.
* A property read on `undefined` throws a `TypeError`; functions that read properties
  return `Except JsError _`.
* The geometry of a loaded scene (lines 107-116) does not influence the bookkeeping and
  is modelled on its own, over the real numbers, in the second part.
* The scene graph (`scene.add`, `scene.remove`), the console and the progress callback
  are left out: nothing in the functions below reads them.
-/

namespace PhoneShow

/-! ## Data model -/

/-- One element of the array returned by `GET /api/phones`.  `model_path` is `none`
when the property is missing (`undefined`) or `null`. -/
structure PhoneRecord where
  name : String
  screen : String
  processor : String
  camera : String
  battery : String
  storage : String
  model_path : Option String
deriving DecidableEq, Repr

/-- JavaScript truthiness of `phone.model_path`: `undefined`, `null` and the empty
string are falsy. -/
def truthyPath (p : Option String) : Bool :=
  match p with
  | none => false
  | some str => str != ""

/-- The flags of `gltf.scene` that the loader bookkeeping and `showNextModel` write. -/
structure SceneHandle where
  visible : Bool
deriving DecidableEq, Repr

/-- The object literal stored in `phoneModels[index]` (lines 119-122). -/
structure PhoneModel where
  scene : SceneHandle
  info : PhoneRecord
deriving DecidableEq, Repr

/-- The module-level state: `phoneModels`, `currentModelIndex`, the `innerHTML` of
every `#info-container` element of the document (in document order), the number of
"next" buttons of the document, and the number of `controls.reset()` calls so far. -/
structure AppState where
  phoneModels : List (Option PhoneModel)
  currentModelIndex : Nat
  infoContainers : List String
  nextButtons : Nat
  controlsResets : Nat
deriving DecidableEq, Repr

/-- The state after `init()` and before the first `loadModels` call (lines 5-7). -/
def freshStart : AppState :=
  { phoneModels := [], currentModelIndex := 0, infoContainers := [],
    nextButtons := 0, controlsResets := 0 }

/-- The errors a JavaScript evaluation can throw here. -/
inductive JsError where
  | typeError
deriving DecidableEq, Repr

/-! ## JavaScript array and property access -/

/-- Array read `a[i]`: `undefined` (here `none`) out of range and on a hole. -/
def elemAt {α : Type} (a : List (Option α)) (i : Nat) : Option α :=
  match a with
  | [] => none
  | x :: rest =>
    match i with
    | 0 => x
    | j + 1 => elemAt rest j

/-- Array write `a[i] = v`: past the end the array grows and the skipped positions
are holes. -/
def arraySet {α : Type} (a : List (Option α)) (i : Nat) (v : α) : List (Option α) :=
  match a, i with
  | [], 0 => [some v]
  | [], j + 1 => none :: arraySet [] j v
  | _ :: rest, 0 => some v :: rest
  | x :: rest, j + 1 => x :: arraySet rest j v

/-- Property read `o.p` on a value that may be `undefined`. -/
def getProp {α : Type} (o : Option α) : Except JsError α :=
  match o with
  | none => Except.error JsError.typeError
  | some a => Except.ok a

/-! ## The info panel -/

/-- The template literal of `updatePhoneInfo` (lines 186-193). -/
def renderInfo (p : PhoneRecord) : String :=
  "\n            <h3>" ++ p.name ++ "</h3>" ++
  "\n            <p>螢幕: " ++ p.screen ++ "</p>" ++
  "\n            <p>處理器: " ++ p.processor ++ "</p>" ++
  "\n            <p>相機: " ++ p.camera ++ "</p>" ++
  "\n            <p>電池: " ++ p.battery ++ "</p>" ++
  "\n            <p>儲存空間: " ++ p.storage ++ "</p>" ++
  "\n        "

/-- `infoContainer.innerHTML = html` on the element `document.getElementById` returns,
the first `#info-container` of the document; nothing happens when there is none. -/
def setFirstContainer (cs : List String) (html : String) : List String :=
  match cs with
  | [] => []
  | _ :: rest => html :: rest

/-- `updatePhoneInfo(index)` (lines 177-195).  The index is a natural number, so the
test `index < 0` is always false; a stored `info` is a record object, hence truthy, so
the test of line 185 is whether an `#info-container` exists. -/
def updatePhoneInfo (s : AppState) (index : Nat) : Except JsError AppState :=
  if index ≥ s.phoneModels.length ∨ (elemAt s.phoneModels index).isNone then
    Except.ok s
  else
    match getProp (elemAt s.phoneModels index) with
    | Except.error e => Except.error e
    | Except.ok m =>
      Except.ok { s with infoContainers := setFirstContainer s.infoContainers (renderInfo m.info) }

/-- `createPhoneInfoUI(phonesData)` (lines 146-171): appends a new, empty
`#info-container` and a new button to the document, then calls `updatePhoneInfo(0)`. -/
def createPhoneInfoUI (s : AppState) : Except JsError AppState :=
  updatePhoneInfo
    { s with infoContainers := s.infoContainers ++ [""], nextButtons := s.nextButtons + 1 } 0

/-! ## Cycling -/

/-- The assignment `phoneModels[i].scene.visible = v`, which throws on an empty slot. -/
def setVisible (a : List (Option PhoneModel)) (i : Nat) (v : Bool) :
    Except JsError (List (Option PhoneModel)) :=
  match getProp (elemAt a i) with
  | Except.error e => Except.error e
  | Except.ok m => Except.ok (arraySet a i { m with scene := { m.scene with visible := v } })

/-- The guarded statement
`if (phoneModels[i] && phoneModels[i].scene) phoneModels[i].scene.visible = v`
(lines 204-206 and 212-214); a stored `scene` is an object, hence truthy. -/
def setVisibleIfPresent (a : List (Option PhoneModel)) (i : Nat) (v : Bool) :
    Except JsError (List (Option PhoneModel)) :=
  if (elemAt a i).isSome then setVisible a i v else Except.ok a

/-- `showNextModel()` (lines 200-221). -/
def showNextModel (s : AppState) : Except JsError AppState :=
  if s.phoneModels.length ≤ 1 then Except.ok s
  else
    match setVisibleIfPresent s.phoneModels s.currentModelIndex false with
    | Except.error e => Except.error e
    | Except.ok hidden =>
      let next := (s.currentModelIndex + 1) % hidden.length
      match setVisibleIfPresent hidden next true with
      | Except.error e => Except.error e
      | Except.ok shown =>
        match updatePhoneInfo { s with phoneModels := shown, currentModelIndex := next } next with
        | Except.error e => Except.error e
        | Except.ok s2 => Except.ok { s2 with controlsResets := s2.controlsResets + 1 }

/-- The result of `k` clicks on the "next" button: `k` calls of `showNextModel`. -/
def showNextModelN (k : Nat) (s : AppState) : Except JsError AppState :=
  match k with
  | 0 => Except.ok s
  | j + 1 =>
    match showNextModelN j s with
    | Except.error e => Except.error e
    | Except.ok s1 => showNextModel s1

/-! ## Loading -/

/-- One `loadModels` call in progress: the shared state, the closure variables
`phonesData` and `loadedCount`, and the indices for which `loader.load` was called. -/
structure LoadBatch where
  app : AppState
  phonesData : List PhoneRecord
  loadedCount : Nat
  requested : List Nat
deriving DecidableEq, Repr

/-- The body of `phonesData.forEach((phone, index) => ...)` for the records from
position `index` on (lines 90-139): a record without a model path only increments
`loadedCount`, any other record issues a `loader.load` request. -/
def forEachPhone (phones : List PhoneRecord) (index : Nat) (b : LoadBatch) : LoadBatch :=
  match phones with
  | [] => b
  | phone :: rest =>
    if !truthyPath phone.model_path then
      forEachPhone rest (index + 1) { b with loadedCount := b.loadedCount + 1 }
    else
      forEachPhone rest (index + 1) { b with requested := b.requested ++ [index] }

/-- The synchronous part of `loadModels(phonesData)` (lines 72-140).  An empty list
returns at once; otherwise `phoneModels` is emptied and the records are visited. -/
def loadModels (s : AppState) (phonesData : List PhoneRecord) : LoadBatch :=
  if phonesData.length = 0 then
    { app := s, phonesData := phonesData, loadedCount := 0, requested := [] }
  else
    forEachPhone phonesData 0
      { app := { s with phoneModels := [] }, phonesData := phonesData,
        loadedCount := 0, requested := [] }

/-- The load-success callback of the request for `phone` at `index` (lines 101-130),
without the geometry of lines 107-116: the visibility flag, the store at `index`, the
count, and the call of `createPhoneInfoUI` when the count equals `phonesData.length`. -/
def onLoad (b : LoadBatch) (index : Nat) (phone : PhoneRecord) : Except JsError LoadBatch :=
  let stored : AppState :=
    { b.app with
      phoneModels := arraySet b.app.phoneModels index
        { scene := { visible := index == 0 }, info := phone } }
  let count := b.loadedCount + 1
  if count = b.phonesData.length then
    match createPhoneInfoUI stored with
    | Except.error e => Except.error e
    | Except.ok s => Except.ok { b with app := s, loadedCount := count }
  else
    Except.ok { b with app := stored, loadedCount := count }

/-- The load-error callback (lines 134-137): it counts the attempt and does nothing
else. -/
def onError (b : LoadBatch) : LoadBatch :=
  { b with loadedCount := b.loadedCount + 1 }

/-- How a `loader.load` request settles. -/
inductive Outcome where
  | loaded
  | failed
deriving DecidableEq, Repr

/-- The request for position `e.1` settles with outcome `e.2`: the matching callback
runs with the `phone` and `index` of its closure. -/
def settle (b : LoadBatch) (e : Nat × Outcome) : Except JsError LoadBatch :=
  match b.phonesData[e.1]? with
  | none => Except.ok b
  | some phone =>
    match e.2 with
    | Outcome.loaded => onLoad b e.1 phone
    | Outcome.failed => Except.ok (onError b)

/-- The callbacks of a completion order, run one after the other. -/
def settleAll (b : LoadBatch) (events : List (Nat × Outcome)) : Except JsError LoadBatch :=
  match events with
  | [] => Except.ok b
  | e :: rest =>
    match settle b e with
    | Except.error err => Except.error err
    | Except.ok b1 => settleAll b1 rest

/-- A completion order of a batch settles every issued request exactly once. -/
def CompletionOrder (b : LoadBatch) (events : List (Nat × Outcome)) : Prop :=
  (events.map Prod.fst).Perm b.requested

instance (b : LoadBatch) (events : List (Nat × Outcome)) :
    Decidable (CompletionOrder b events) := by
  unfold CompletionOrder
  infer_instance

/-- One `loadModels(phonesData)` call made in state `s0` followed by the callbacks of
`events`: the module state afterwards. -/
def afterLoads (s0 : AppState) (phonesData : List PhoneRecord)
    (events : List (Nat × Outcome)) : Except JsError AppState :=
  match settleAll (loadModels s0 phonesData) events with
  | Except.error e => Except.error e
  | Except.ok b => Except.ok b.app

/-- A whole session from the fresh state: one `loadModels` call, the callbacks of
`events`, then `k` calls of `showNextModel`. -/
def afterClicks (phonesData : List PhoneRecord) (events : List (Nat × Outcome)) (k : Nat) :
    Except JsError AppState :=
  match afterLoads freshStart phonesData events with
  | Except.error e => Except.error e
  | Except.ok s => showNextModelN k s

/-- The number of populated slots of a collection. -/
def populatedCount (a : List (Option PhoneModel)) : Nat :=
  (a.filter Option.isSome).length

/-! ## State properties -/

/-- Every visible model sits at the active index. -/
def VisibleOnlyAtCurrent (s : AppState) : Prop :=
  ∀ i m, elemAt s.phoneModels i = some m → m.scene.visible = true → i = s.currentModelIndex

/-- The content of the info panel: the `innerHTML` of the element
`document.getElementById('info-container')` returns, when there is one. -/
def panelContent (s : AppState) : Option String :=
  s.infoContainers.head?

/-- The panel shows the content rendered from `phoneModels[currentModelIndex].info`. -/
def PanelShowsActiveRecord (s : AppState) : Prop :=
  ∃ m, elemAt s.phoneModels s.currentModelIndex = some m ∧
    panelContent s = some (renderInfo m.info)

/-- The active index is a position of the collection, unless the collection is too short
to cycle. -/
def IndexInRange (s : AppState) : Prop :=
  s.currentModelIndex < s.phoneModels.length ∨ s.phoneModels.length ≤ 1

/-- There is exactly one panel, and it shows the record of the active slot whenever that
slot is populated. -/
def PanelMatchesPopulatedActive (s : AppState) : Prop :=
  ∃ c, s.infoContainers = [c] ∧
    ∀ m, elemAt s.phoneModels s.currentModelIndex = some m → c = renderInfo m.info

/-- Slot `i` is empty. -/
def SlotEmpty (i : Nat) (s : AppState) : Prop :=
  elemAt s.phoneModels i = none

/-- All records of `data` are loaded, the one at position `k % data.length` is the active
one, it alone is visible, and the single panel shows it. -/
def ShowsRecord (data : List PhoneRecord) (k : Nat) (s : AppState) : Prop :=
  s.phoneModels.length = data.length ∧
  s.currentModelIndex = k % data.length ∧
  (∃ p, data[k % data.length]? = some p ∧ s.infoContainers = [renderInfo p]) ∧
  ∀ j p, data[j]? = some p →
    elemAt s.phoneModels j =
      some { scene := { visible := decide (j = k % data.length) }, info := p }

/-- Some record for the examples. -/
def phoneNamed (name : String) (path : Option String) : PhoneRecord :=
  { name := name, screen := "6.1", processor := "P", camera := "12MP", battery := "3000mAh",
    storage := "128GB", model_path := path }

/-! ## The geometry of the load-success callback

Lines 107-116 of `src/main.js`, with real numbers in place of floating-point numbers.
`Vector3`, `Box3` and the transform of `Object3D` are those of three.js.  The real square
root of `Vector3.length` has no executable counterpart, so this part is not computable;
concrete boxes are evaluated by proof. -/

noncomputable section

/-- `THREE.Vector3`, with real components. -/
structure Vector3 where
  x : ℝ
  y : ℝ
  z : ℝ

/-- `Vector3.length()`. -/
def Vector3.length (v : Vector3) : ℝ :=
  Real.sqrt (v.x * v.x + v.y * v.y + v.z * v.z)

/-- `Vector3.multiplyScalar(s)`. -/
def Vector3.multiplyScalar (v : Vector3) (s : ℝ) : Vector3 :=
  { x := v.x * s, y := v.y * s, z := v.z * s }

/-- `Vector3.sub(w)`. -/
def Vector3.sub (v w : Vector3) : Vector3 :=
  { x := v.x - w.x, y := v.y - w.y, z := v.z - w.z }

/-- `THREE.Box3`: an axis-aligned box given by two corners. -/
structure Box3 where
  min : Vector3
  max : Vector3

/-- `Box3.isEmpty()`. -/
def Box3.isEmpty (b : Box3) : Prop :=
  b.max.x < b.min.x ∨ b.max.y < b.min.y ∨ b.max.z < b.min.z

instance (b : Box3) : Decidable b.isEmpty := by
  unfold Box3.isEmpty
  infer_instance

/-- `Box3.getSize(target)`. -/
def Box3.getSize (b : Box3) : Vector3 :=
  if b.isEmpty then { x := 0, y := 0, z := 0 }
  else { x := b.max.x - b.min.x, y := b.max.y - b.min.y, z := b.max.z - b.min.z }

/-- `Box3.getCenter(target)`. -/
def Box3.getCenter (b : Box3) : Vector3 :=
  if b.isEmpty then { x := 0, y := 0, z := 0 }
  else
    Vector3.multiplyScalar
      { x := b.min.x + b.max.x, y := b.min.y + b.max.y, z := b.min.z + b.max.z } 0.5

/-- The root of a loaded scene (`gltf.scene`): its `position`, its `scale`, and the
axis-aligned bounding box of everything below it, in the frame of the root.  The root
carries no rotation and has no parent. -/
structure Object3D where
  position : Vector3
  scale : Vector3
  geometry : Box3

/-- `new THREE.Box3().setFromObject(o)`: the world-space bounding box of the object, the
image of the box of its geometry under the scale and the translation of the root; an
object without geometry has an empty box. -/
def Box3.setFromObject (o : Object3D) : Box3 :=
  if o.geometry.isEmpty then o.geometry
  else
    { min :=
        { x := Min.min (o.scale.x * o.geometry.min.x) (o.scale.x * o.geometry.max.x) + o.position.x,
          y := Min.min (o.scale.y * o.geometry.min.y) (o.scale.y * o.geometry.max.y) + o.position.y,
          z := Min.min (o.scale.z * o.geometry.min.z) (o.scale.z * o.geometry.max.z) + o.position.z },
      max :=
        { x := Max.max (o.scale.x * o.geometry.min.x) (o.scale.x * o.geometry.max.x) + o.position.x,
          y := Max.max (o.scale.y * o.geometry.min.y) (o.scale.y * o.geometry.max.y) + o.position.y,
          z := Max.max (o.scale.z * o.geometry.min.z) (o.scale.z * o.geometry.max.z) + o.position.z } }

/-- The scene root as the loader delivers it: at the origin, with unit scale. -/
def IdentityRoot (o : Object3D) : Prop :=
  o.position = { x := 0, y := 0, z := 0 } ∧ o.scale = { x := 1, y := 1, z := 1 }

/-- The quotient `6 / size` of line 110.  For `size = 0` the JavaScript value is
`Infinity`, which is no real number: there is no result. -/
def scaleFactorOf (size : ℝ) : Option ℝ :=
  if size = 0 then none else some (6 / size)

/-- Lines 108-116 of the load-success callback: measure the bounding box, set the same
scale factor on the three axes, and move the position by the scaled centre. -/
def normalizeScene (o : Object3D) : Option Object3D :=
  let box := Box3.setFromObject o
  let size := (box.getSize).length
  match scaleFactorOf size with
  | none => none
  | some scaleFactor =>
    let scaled : Object3D :=
      { o with scale := { x := scaleFactor, y := scaleFactor, z := scaleFactor } }
    let center := box.getCenter
    some { scaled with position := scaled.position.sub (center.multiplyScalar scaleFactor) }

/-- A scene whose whole geometry is the single point (1, 1, 1), root at identity. -/
def pointAsset : Object3D :=
  { position := { x := 0, y := 0, z := 0 }, scale := { x := 1, y := 1, z := 1 },
    geometry := { min := { x := 1, y := 1, z := 1 }, max := { x := 1, y := 1, z := 1 } } }

/-- A scene whose geometry fills the box from (0, 0, 0) to (2, 3, 6), root at identity. -/
def brickAsset : Object3D :=
  { position := { x := 0, y := 0, z := 0 }, scale := { x := 1, y := 1, z := 1 },
    geometry := { min := { x := 0, y := 0, z := 0 }, max := { x := 2, y := 3, z := 6 } } }

end

/-! ## Array lemmas -/

theorem elemAt_nil {α : Type} (i : Nat) : elemAt ([] : List (Option α)) i = none := rfl

theorem elemAt_of_length_le {α : Type} (a : List (Option α)) (i : Nat)
    (h : a.length ≤ i) : elemAt a i = none := by
  induction a generalizing i with
  | nil => rfl
  | cons x rest ih =>
    cases i with
    | zero => simp at h
    | succ j => exact ih j (by simpa using h)

theorem lt_length_of_elemAt {α : Type} (a : List (Option α)) (i : Nat) (m : α)
    (h : elemAt a i = some m) : i < a.length := by
  by_contra hc
  rw [elemAt_of_length_le a i (by omega)] at h
  cases h

theorem elemAt_arraySet {α : Type} (a : List (Option α)) (i j : Nat) (v : α) :
    elemAt (arraySet a i v) j = if j = i then some v else elemAt a j := by
  induction a generalizing i j with
  | nil =>
    induction i generalizing j with
    | zero => cases j <;> simp [arraySet, elemAt]
    | succ k ih =>
      cases j with
      | zero => simp [arraySet, elemAt]
      | succ l => simpa [arraySet, elemAt] using ih l
  | cons x rest ih =>
    cases i with
    | zero => cases j <;> simp [arraySet, elemAt]
    | succ k =>
      cases j with
      | zero => simp [arraySet, elemAt]
      | succ l => simpa [arraySet, elemAt] using ih k l

theorem length_arraySet {α : Type} (a : List (Option α)) (i : Nat) (v : α) :
    (arraySet a i v).length = max a.length (i + 1) := by
  induction a generalizing i with
  | nil =>
    induction i with
    | zero => simp [arraySet]
    | succ k ih => simp [arraySet, ih]
  | cons x rest ih =>
    cases i with
    | zero => simp [arraySet]
    | succ k => simp [arraySet, ih k, Nat.succ_max_succ]

theorem array_ext {α : Type} (a b : List (Option α)) (hlen : a.length = b.length)
    (h : ∀ i, elemAt a i = elemAt b i) : a = b := by
  induction a generalizing b with
  | nil =>
    cases b with
    | nil => rfl
    | cons y rest => simp at hlen
  | cons x rest ih =>
    cases b with
    | nil => simp at hlen
    | cons y rest2 =>
      have h0 : x = y := h 0
      have ht : rest = rest2 :=
        ih rest2 (by simpa using hlen) (fun i => h (i + 1))
      rw [h0, ht]

/-! ## What the panel and the cycle functions compute -/

theorem updatePhoneInfo_none (s : AppState) (i : Nat) (h : elemAt s.phoneModels i = none) :
    updatePhoneInfo s i = Except.ok s := by
  simp [updatePhoneInfo, h]

theorem updatePhoneInfo_some (s : AppState) (i : Nat) (m : PhoneModel)
    (h : elemAt s.phoneModels i = some m) :
    updatePhoneInfo s i = Except.ok
      { s with infoContainers := setFirstContainer s.infoContainers (renderInfo m.info) } := by
  have hlt : i < s.phoneModels.length := lt_length_of_elemAt _ _ _ h
  simp [updatePhoneInfo, h, getProp, hlt]

theorem setVisibleIfPresent_none (a : List (Option PhoneModel)) (i : Nat) (v : Bool)
    (h : elemAt a i = none) : setVisibleIfPresent a i v = Except.ok a := by
  simp [setVisibleIfPresent, h]

theorem setVisibleIfPresent_some (a : List (Option PhoneModel)) (i : Nat) (v : Bool)
    (m : PhoneModel) (h : elemAt a i = some m) :
    setVisibleIfPresent a i v =
      Except.ok (arraySet a i { m with scene := { m.scene with visible := v } }) := by
  simp [setVisibleIfPresent, setVisible, h, getProp]

/-- The guarded visibility write never throws; it keeps the length of the collection and
changes the flag of slot `i` only. -/
theorem setVisibleIfPresent_spec (a : List (Option PhoneModel)) (i : Nat) (v : Bool) :
    ∃ a2, setVisibleIfPresent a i v = Except.ok a2 ∧ a2.length = a.length ∧
      ∀ j, elemAt a2 j = (elemAt a j).map
        (fun m => { m with scene := { visible := if j = i then v else m.scene.visible } }) := by
  cases h : elemAt a i with
  | none =>
    refine ⟨a, setVisibleIfPresent_none a i v h, rfl, ?_⟩
    intro j
    by_cases hj : j = i
    · subst hj; simp [h]
    · cases hq : elemAt a j <;> simp [hj]
  | some m =>
    refine ⟨_, setVisibleIfPresent_some a i v m h, ?_, ?_⟩
    · have hlt := lt_length_of_elemAt _ _ _ h
      rw [length_arraySet]; omega
    · intro j
      rw [elemAt_arraySet]
      by_cases hj : j = i
      · subst hj; simp [h]
      · cases hq : elemAt a j <;> simp [hj]

/-- One call of `showNextModel` on a collection of length at least 2: it returns, the
index advances modulo the length, the slot left is hidden, the slot reached is shown,
the panel is refreshed when the slot reached is populated, the controls are reset. -/
theorem showNextModel_spec (s : AppState) (hlen : 1 < s.phoneModels.length) :
    ∃ s2, showNextModel s = Except.ok s2 ∧
      s2.currentModelIndex = (s.currentModelIndex + 1) % s.phoneModels.length ∧
      s2.phoneModels.length = s.phoneModels.length ∧
      (∀ j, elemAt s2.phoneModels j = (elemAt s.phoneModels j).map
        (fun m => { m with scene := { visible :=
          if j = s2.currentModelIndex then true
          else if j = s.currentModelIndex then false else m.scene.visible } })) ∧
      s2.infoContainers =
        (match elemAt s.phoneModels s2.currentModelIndex with
         | some m => setFirstContainer s.infoContainers (renderInfo m.info)
         | none => s.infoContainers) ∧
      s2.nextButtons = s.nextButtons ∧
      s2.controlsResets = s.controlsResets + 1 := by
  obtain ⟨hidden, h1, hl1, he1⟩ := setVisibleIfPresent_spec s.phoneModels s.currentModelIndex false
  obtain ⟨shown, h2, hl2, he2⟩ :=
    setVisibleIfPresent_spec hidden ((s.currentModelIndex + 1) % hidden.length) true
  have hslot : ∀ j, elemAt shown j = (elemAt s.phoneModels j).map
      (fun m => { m with scene := { visible :=
        if j = (s.currentModelIndex + 1) % s.phoneModels.length then true
        else if j = s.currentModelIndex then false else m.scene.visible } }) := by
    intro j
    rw [he2 j, he1 j, hl1]
    cases elemAt s.phoneModels j <;> simp
  have hnot : ¬ s.phoneModels.length ≤ 1 := by omega
  cases hq : elemAt s.phoneModels ((s.currentModelIndex + 1) % s.phoneModels.length) with
  | none =>
    have hu := updatePhoneInfo_none
      { s with phoneModels := shown,
               currentModelIndex := (s.currentModelIndex + 1) % hidden.length }
      ((s.currentModelIndex + 1) % hidden.length)
      (by rw [hl1]; simp [hslot, hq])
    refine ⟨_, by simp only [showNextModel, hnot, if_false, h1, h2, hu]; rfl, ?_⟩
    simp [hl1, hl2, hslot, hq]
  | some m =>
    have hu := updatePhoneInfo_some
      { s with phoneModels := shown,
               currentModelIndex := (s.currentModelIndex + 1) % hidden.length }
      ((s.currentModelIndex + 1) % hidden.length)
      { m with scene := { visible := true } }
      (by rw [hl1]; simp [hslot, hq])
    refine ⟨_, by simp only [showNextModel, hnot, if_false, h1, h2, hu]; rfl, ?_⟩
    simp [hl1, hl2, hslot, hq]

/-- On a collection of length at most 1, `showNextModel` returns the state it was given. -/
theorem showNextModel_short (s : AppState) (hlen : s.phoneModels.length ≤ 1) :
    showNextModel s = Except.ok s := by
  simp [showNextModel, hlen]

/-- `showNextModel` never throws. -/
theorem showNextModel_ok (s : AppState) : ∃ s2, showNextModel s = Except.ok s2 := by
  by_cases h : s.phoneModels.length ≤ 1
  · exact ⟨s, showNextModel_short s h⟩
  · obtain ⟨s2, h2, _⟩ := showNextModel_spec s (by omega)
    exact ⟨s2, h2⟩

theorem showNextModelN_ok (k : Nat) (s : AppState) : ∃ s2, showNextModelN k s = Except.ok s2 := by
  induction k with
  | zero => exact ⟨s, rfl⟩
  | succ j ih =>
    obtain ⟨s1, h1⟩ := ih
    obtain ⟨s2, h2⟩ := showNextModel_ok s1
    exact ⟨s2, by simp [showNextModelN, h1, h2]⟩

theorem showNextModelN_succ (k : Nat) (s s1 : AppState)
    (h : showNextModelN k s = Except.ok s1) :
    showNextModelN (k + 1) s = showNextModel s1 := by
  simp [showNextModelN, h]

/-! ## The synchronous part of `loadModels` -/

theorem forEachPhone_spec (phones : List PhoneRecord) (idx : Nat) (b : LoadBatch) :
    (forEachPhone phones idx b).app = b.app ∧
    (forEachPhone phones idx b).phonesData = b.phonesData ∧
    (forEachPhone phones idx b).loadedCount + (forEachPhone phones idx b).requested.length
      = b.loadedCount + b.requested.length + phones.length ∧
    (∀ i, i ∈ (forEachPhone phones idx b).requested ↔
      i ∈ b.requested ∨
        ∃ p, idx ≤ i ∧ phones[i - idx]? = some p ∧ truthyPath p.model_path = true) ∧
    (b.requested.Nodup → (∀ i ∈ b.requested, i < idx) →
      (forEachPhone phones idx b).requested.Nodup) := by
  induction phones generalizing idx b with
  | nil =>
    refine ⟨rfl, rfl, by simp [forEachPhone], by simp [forEachPhone], fun h _ => h⟩
  | cons phone rest ih =>
    by_cases hp : truthyPath phone.model_path = true
    · have hstep : forEachPhone (phone :: rest) idx b =
          forEachPhone rest (idx + 1) { b with requested := b.requested ++ [idx] } := by
        simp [forEachPhone, hp]
      obtain ⟨h1, h2, h3, h4, h5⟩ :=
        ih (idx + 1) { b with requested := b.requested ++ [idx] }
      rw [hstep]
      refine ⟨h1, h2, ?_, ?_, ?_⟩
      · rw [h3]; simp; omega
      · intro i
        rw [h4 i]
        constructor
        · rintro (hm | ⟨p, hle, hget, hpt⟩)
          · rcases List.mem_append.mp hm with hm | hm
            · exact Or.inl hm
            · have hi : i = idx := by simpa using hm
              subst hi
              exact Or.inr ⟨phone, le_refl _, by simp, hp⟩
          · refine Or.inr ⟨p, by omega, ?_, hpt⟩
            have : i - idx = (i - (idx + 1)) + 1 := by omega
            rw [this]; simpa using hget
        · rintro (hm | ⟨p, hle, hget, hpt⟩)
          · exact Or.inl (List.mem_append.mpr (Or.inl hm))
          · by_cases hi : i = idx
            · subst hi
              exact Or.inl (List.mem_append.mpr (Or.inr (by simp)))
            · refine Or.inr ⟨p, by omega, ?_, hpt⟩
              have : i - idx = (i - (idx + 1)) + 1 := by omega
              rw [this] at hget; simpa using hget
      · intro hnd hlt
        apply h5
        · refine List.Nodup.append hnd (List.nodup_singleton idx) ?_
          intro x hx hx2
          have : x = idx := by simpa using hx2
          have := hlt x hx
          omega
        · intro i hm
          rcases List.mem_append.mp hm with hm | hm
          · have := hlt i hm; omega
          · have : i = idx := by simpa using hm
            omega
    · have hstep : forEachPhone (phone :: rest) idx b =
          forEachPhone rest (idx + 1) { b with loadedCount := b.loadedCount + 1 } := by
        simp [forEachPhone, hp]
      obtain ⟨h1, h2, h3, h4, h5⟩ :=
        ih (idx + 1) { b with loadedCount := b.loadedCount + 1 }
      rw [hstep]
      refine ⟨h1, h2, ?_, ?_, ?_⟩
      · rw [h3]; simp; omega
      · intro i
        rw [h4 i]
        constructor
        · rintro (hm | ⟨p, hle, hget, hpt⟩)
          · exact Or.inl hm
          · refine Or.inr ⟨p, by omega, ?_, hpt⟩
            have : i - idx = (i - (idx + 1)) + 1 := by omega
            rw [this]; simpa using hget
        · rintro (hm | ⟨p, hle, hget, hpt⟩)
          · exact Or.inl hm
          · by_cases hi : i = idx
            · subst hi
              simp at hget
              subst hget
              exact absurd hpt hp
            · refine Or.inr ⟨p, by omega, ?_, hpt⟩
              have : i - idx = (i - (idx + 1)) + 1 := by omega
              rw [this] at hget; simpa using hget
      · intro hnd hlt
        apply h5 hnd
        intro i hm
        have := hlt i hm
        omega

/-- After the synchronous part of `loadModels` on a non-empty list: the collection is
empty, the other variables are untouched, every record is either counted as skipped or
has exactly one request, and the requests are those of the records with a model path. -/
theorem loadModels_spec (s : AppState) (data : List PhoneRecord) (hne : data ≠ []) :
    (loadModels s data).app = { s with phoneModels := [] } ∧
    (loadModels s data).phonesData = data ∧
    (loadModels s data).loadedCount + (loadModels s data).requested.length = data.length ∧
    (∀ i, i ∈ (loadModels s data).requested ↔
      ∃ p, data[i]? = some p ∧ truthyPath p.model_path = true) ∧
    (loadModels s data).requested.Nodup := by
  have hlen : ¬ data.length = 0 := by
    intro h; exact hne (List.length_eq_zero.mp h)
  have hstep : loadModels s data = forEachPhone data 0
      { app := { s with phoneModels := [] }, phonesData := data,
        loadedCount := 0, requested := [] } := by
    simp [loadModels, hlen]
  obtain ⟨h1, h2, h3, h4, h5⟩ := forEachPhone_spec data 0
      { app := { s with phoneModels := [] }, phonesData := data,
        loadedCount := 0, requested := [] }
  rw [hstep]
  refine ⟨h1, h2, by simpa using h3, ?_, h5 List.nodup_nil (by simp)⟩
  intro i
  rw [h4 i]
  simp

/-! ## The callbacks -/

/-- What `createPhoneInfoUI` does: it never throws, appends one container and one button,
and fills the first container of the document from slot 0 when that slot is populated. -/
theorem createPhoneInfoUI_spec (s : AppState) :
    ∃ s2, createPhoneInfoUI s = Except.ok s2 ∧
      s2.phoneModels = s.phoneModels ∧ s2.currentModelIndex = s.currentModelIndex ∧
      s2.controlsResets = s.controlsResets ∧ s2.nextButtons = s.nextButtons + 1 ∧
      s2.infoContainers =
        (match elemAt s.phoneModels 0 with
         | some m => setFirstContainer (s.infoContainers ++ [""]) (renderInfo m.info)
         | none => s.infoContainers ++ [""]) := by
  cases hq : elemAt s.phoneModels 0 with
  | none =>
    exact ⟨_, updatePhoneInfo_none _ 0 (by simpa using hq), rfl, rfl, rfl, rfl, rfl⟩
  | some m =>
    exact ⟨_, updatePhoneInfo_some _ 0 m (by simpa using hq), rfl, rfl, rfl, rfl, rfl⟩

/-- One callback of a request that was issued: it never throws, counts one more
completed attempt, a success stores the model at its own index, and the panel is built
by a success that brings the count to the number of records and by nothing else. -/
theorem settle_spec (b : LoadBatch) (e : Nat × Outcome) (he : e.1 < b.phonesData.length) :
    ∃ b2, settle b e = Except.ok b2 ∧
      b2.phonesData = b.phonesData ∧ b2.requested = b.requested ∧
      b2.loadedCount = b.loadedCount + 1 ∧
      b2.app.currentModelIndex = b.app.currentModelIndex ∧
      b2.app.controlsResets = b.app.controlsResets ∧
      (∀ j, elemAt b2.app.phoneModels j =
        if e.2 = Outcome.loaded ∧ j = e.1 then
          (b.phonesData[j]?).map (fun p => { scene := { visible := j == 0 }, info := p })
        else elemAt b.app.phoneModels j) ∧
      b2.app.phoneModels.length =
        (if e.2 = Outcome.loaded then max b.app.phoneModels.length (e.1 + 1)
         else b.app.phoneModels.length) ∧
      ((e.2 = Outcome.loaded ∧ b.loadedCount + 1 = b.phonesData.length) →
        b2.app.nextButtons = b.app.nextButtons + 1 ∧
        b2.app.infoContainers =
          (match elemAt b2.app.phoneModels 0 with
           | some m => setFirstContainer (b.app.infoContainers ++ [""]) (renderInfo m.info)
           | none => b.app.infoContainers ++ [""])) ∧
      (¬ (e.2 = Outcome.loaded ∧ b.loadedCount + 1 = b.phonesData.length) →
        b2.app.nextButtons = b.app.nextButtons ∧
        b2.app.infoContainers = b.app.infoContainers) := by
  obtain ⟨i, o⟩ := e
  simp only at he
  have hget : b.phonesData[i]? = some (b.phonesData[i]) := List.getElem?_eq_getElem he
  cases o with
  | failed =>
    refine ⟨onError b, by simp [settle, hget], rfl, rfl, rfl, rfl, rfl, ?_, ?_, ?_, ?_⟩
    · intro j; simp [onError]
    · simp [onError]
    · intro h; simp at h
    · intro _; exact ⟨rfl, rfl⟩
  | loaded =>
    by_cases hc : b.loadedCount + 1 = b.phonesData.length
    · obtain ⟨s2, hs, hpm, hcur, hres, hbtn, hinfo⟩ := createPhoneInfoUI_spec
        { b.app with
          phoneModels := arraySet b.app.phoneModels i
            { scene := { visible := i == 0 }, info := b.phonesData[i] } }
      refine ⟨{ b with app := s2, loadedCount := b.loadedCount + 1 }, ?_,
        rfl, rfl, rfl, hcur, hres, ?_, ?_, ?_, ?_⟩
      · simp [settle, hget, onLoad, hc, hs]
      · intro j
        simp only [hpm, elemAt_arraySet, hget]
        by_cases hj : j = i
        · subst hj; simp [hget]
        · simp [hj]
      · simp [hpm, length_arraySet]
      · intro _
        refine ⟨hbtn, ?_⟩
        simp only [hpm]
        exact hinfo
      · intro h; exact absurd ⟨rfl, hc⟩ h
    · refine ⟨{ b with
          app := { b.app with
            phoneModels := arraySet b.app.phoneModels i
              { scene := { visible := i == 0 }, info := b.phonesData[i] } },
          loadedCount := b.loadedCount + 1 }, ?_, rfl, rfl, rfl, rfl, rfl, ?_, ?_, ?_, ?_⟩
      · simp [settle, hget, onLoad, hc]
      · intro j
        simp only [elemAt_arraySet, hget]
        by_cases hj : j = i
        · subst hj; simp [hget]
        · simp [hj]
      · simp [length_arraySet]
      · intro h; exact absurd h.2 hc
      · intro _; exact ⟨rfl, rfl⟩

/-- A sequence of callbacks of issued requests: it never throws; the count grows by
one per callback; slot `j` holds record `j` exactly when a success for `j` is among the
callbacks; the collection reaches up to its highest loaded index; and the panel is
built exactly when the callback that brings the count to the number of records is a
success, which can only be the last one. -/
theorem settleAll_spec (events : List (Nat × Outcome)) (b : LoadBatch)
    (hv : ∀ e ∈ events, e.1 < b.phonesData.length) :
    ∃ b2, settleAll b events = Except.ok b2 ∧
      b2.phonesData = b.phonesData ∧ b2.requested = b.requested ∧
      b2.loadedCount = b.loadedCount + events.length ∧
      b2.app.currentModelIndex = b.app.currentModelIndex ∧
      b2.app.controlsResets = b.app.controlsResets ∧
      (∀ j, elemAt b2.app.phoneModels j =
        if (j, Outcome.loaded) ∈ events then
          (b.phonesData[j]?).map (fun p => { scene := { visible := j == 0 }, info := p })
        else elemAt b.app.phoneModels j) ∧
      (∀ j, j < b2.app.phoneModels.length ↔
        j < b.app.phoneModels.length ∨ ∃ i, (i, Outcome.loaded) ∈ events ∧ j ≤ i) ∧
      (b.loadedCount + events.length = b.phonesData.length →
        (∃ i, events.getLast? = some (i, Outcome.loaded)) →
        b2.app.nextButtons = b.app.nextButtons + 1 ∧
        b2.app.infoContainers =
          (match elemAt b2.app.phoneModels 0 with
           | some m => setFirstContainer (b.app.infoContainers ++ [""]) (renderInfo m.info)
           | none => b.app.infoContainers ++ [""])) ∧
      (b.loadedCount + events.length ≤ b.phonesData.length →
        ¬ (b.loadedCount + events.length = b.phonesData.length ∧
            ∃ i, events.getLast? = some (i, Outcome.loaded)) →
        b2.app.nextButtons = b.app.nextButtons ∧
        b2.app.infoContainers = b.app.infoContainers) := by
  induction events generalizing b with
  | nil =>
    refine ⟨b, rfl, rfl, rfl, rfl, rfl, rfl, ?_, ?_, ?_, ?_⟩
    · intro j; simp
    · intro j; simp
    · intro _ h; simp at h
    · intro _ _; exact ⟨rfl, rfl⟩
  | cons e rest ih =>
    obtain ⟨b1, hs, hd1, hr1, hc1, hcur1, hres1, hslot1, hlen1, hpos1, hneg1⟩ :=
      settle_spec b e (hv e (List.mem_cons_self _ _))
    obtain ⟨b2, hs2, hd2, hr2, hc2, hcur2, hres2, hslot2, hlen2, hpos2, hneg2⟩ :=
      ih b1 (by
        intro x hx
        rw [hd1]
        exact hv x (List.mem_cons_of_mem _ hx))
    have hmem : ∀ j, (j, Outcome.loaded) ∈ e :: rest ↔
        (e.2 = Outcome.loaded ∧ j = e.1) ∨ (j, Outcome.loaded) ∈ rest := by
      intro j
      obtain ⟨i, o⟩ := e
      simp only [List.mem_cons, Prod.mk.injEq]
      constructor
      · rintro (⟨h1, h2⟩ | h)
        · exact Or.inl ⟨h2.symm, h1⟩
        · exact Or.inr h
      · rintro (⟨h1, h2⟩ | h)
        · exact Or.inl ⟨h2, h1.symm⟩
        · exact Or.inr h
    refine ⟨b2, by simp [settleAll, hs, hs2], by rw [hd2, hd1], by rw [hr2, hr1],
      by rw [hc2, hc1, List.length_cons]; omega, by rw [hcur2, hcur1], by rw [hres2, hres1],
      ?_, ?_, ?_, ?_⟩
    · intro j
      rw [hslot2 j, hslot1 j, hd1]
      by_cases hin : (j, Outcome.loaded) ∈ rest
      · simp [hin]
      · by_cases hh : e.2 = Outcome.loaded ∧ j = e.1
        · rw [if_neg hin, if_pos hh, if_pos ((hmem j).mpr (Or.inl hh))]
        · rw [if_neg hin, if_neg hh, if_neg (fun hc => by
            rcases (hmem j).mp hc with h | h
            · exact hh h
            · exact hin h)]
    · intro j
      rw [hlen2 j, hlen1]
      constructor
      · rintro (h | ⟨i, hi, hji⟩)
        · by_cases ho : e.2 = Outcome.loaded
          · rw [if_pos ho] at h
            by_cases hb : j < b.app.phoneModels.length
            · exact Or.inl hb
            · exact Or.inr ⟨e.1, (hmem e.1).mpr (Or.inl ⟨ho, rfl⟩), by
                have := Nat.lt_of_lt_of_le h (le_refl _)
                rcases Nat.lt_or_ge j (e.1 + 1) with h3 | h3
                · omega
                · have : max b.app.phoneModels.length (e.1 + 1) ≤ j := by
                    apply max_le <;> omega
                  omega⟩
          · rw [if_neg ho] at h
            exact Or.inl h
        · exact Or.inr ⟨i, (hmem i).mpr (Or.inr hi), hji⟩
      · rintro (h | ⟨i, hi, hji⟩)
        · left
          split
          · exact lt_of_lt_of_le h (le_max_left _ _)
          · exact h
        · rcases (hmem i).mp hi with ⟨ho, hie⟩ | h
          · left
            rw [if_pos ho]
            exact lt_of_lt_of_le (by omega) (le_max_right _ _)
          · exact Or.inr ⟨i, h, hji⟩
    · intro hcount hlast
      cases rest with
      | nil =>
        obtain ⟨i, hi⟩ := hlast
        have he : e = (i, Outcome.loaded) := by simpa using hi
        have hp := hpos1 ⟨by rw [he], by simpa using hcount⟩
        have hn := hneg2 (by rw [hc1, hd1]; simp at hcount ⊢; omega) (by simp)
        have h0 : elemAt b2.app.phoneModels 0 = elemAt b1.app.phoneModels 0 := by
          rw [hslot2 0]; simp
        rw [h0, hn.1, hn.2]
        exact hp
      | cons r rs =>
        have hlt : ¬ (e.2 = Outcome.loaded ∧ b.loadedCount + 1 = b.phonesData.length) := by
          intro h
          simp only [List.length_cons] at hcount
          omega
        have hn := hneg1 hlt
        have hp := hpos2 (by rw [hc1, hd1]; simp only [List.length_cons] at hcount ⊢; omega)
          (by simpa [List.getLast?_cons_cons] using hlast)
        rw [hn.1, hn.2] at hp
        exact hp
    · intro hcount hno
      cases rest with
      | nil =>
        have hlt : ¬ (e.2 = Outcome.loaded ∧ b.loadedCount + 1 = b.phonesData.length) := by
          intro h
          apply hno
          refine ⟨by simpa using h.2, e.1, ?_⟩
          obtain ⟨i, o⟩ := e
          simp only at h
          simp [h.1]
        have hn := hneg1 hlt
        have hn2 := hneg2 (by rw [hc1, hd1]; simp at hcount ⊢; omega) (by simp)
        rw [hn2.1, hn2.2]
        exact hn
      | cons r rs =>
        have hlt : ¬ (e.2 = Outcome.loaded ∧ b.loadedCount + 1 = b.phonesData.length) := by
          intro h
          simp only [List.length_cons] at hcount
          omega
        have hn := hneg1 hlt
        have hn2 := hneg2 (by rw [hc1, hd1]; simp only [List.length_cons] at hcount ⊢; omega)
          (by
            intro h
            apply hno
            refine ⟨?_, by simpa [List.getLast?_cons_cons] using h.2⟩
            have := h.1
            rw [hc1, hd1] at this
            simp only [List.length_cons] at this ⊢
            omega)
        rw [hn2.1, hn2.2]
        exact hn

/-! ## The state once every request has settled -/

theorem completionOrder_facts (s0 : AppState) (data : List PhoneRecord)
    (events : List (Nat × Outcome)) (hne : data ≠ [])
    (hco : CompletionOrder (loadModels s0 data) events) :
    (∀ e ∈ events, e.1 < data.length ∧
      ∃ p, data[e.1]? = some p ∧ truthyPath p.model_path = true) ∧
    (loadModels s0 data).loadedCount + events.length = data.length ∧
    (events.map Prod.fst).Nodup ∧
    (∀ i p, data[i]? = some p → truthyPath p.model_path = true → ∃ o, (i, o) ∈ events) := by
  obtain ⟨_, _, hcount, hmem, hnd⟩ := loadModels_spec s0 data hne
  unfold CompletionOrder at hco
  refine ⟨?_, ?_, ?_, ?_⟩
  · intro e he
    have h1 : e.1 ∈ events.map Prod.fst := List.mem_map_of_mem Prod.fst he
    obtain ⟨p, hp, ht⟩ := (hmem e.1).mp (hco.mem_iff.mp h1)
    refine ⟨?_, p, hp, ht⟩
    by_contra hc
    rw [List.getElem?_eq_none (by omega)] at hp
    cases hp
  · have := hco.length_eq
    rw [List.length_map] at this
    omega
  · exact hco.symm.nodup_iff.mp hnd
  · intro i p hp ht
    have h1 : i ∈ events.map Prod.fst := hco.mem_iff.mpr ((hmem i).mpr ⟨p, hp, ht⟩)
    obtain ⟨e, he, hi⟩ := List.mem_map.mp h1
    refine ⟨e.2, ?_⟩
    rw [← hi]
    exact he

/-- The state after one `loadModels` call on a non-empty list and all of its callbacks,
in any completion order. -/
theorem afterLoads_spec (s0 : AppState) (data : List PhoneRecord)
    (events : List (Nat × Outcome)) (hne : data ≠ [])
    (hco : CompletionOrder (loadModels s0 data) events) :
    ∃ s, afterLoads s0 data events = Except.ok s ∧
      s.currentModelIndex = s0.currentModelIndex ∧
      s.controlsResets = s0.controlsResets ∧
      (∀ j, elemAt s.phoneModels j =
        if (j, Outcome.loaded) ∈ events then
          (data[j]?).map (fun p => { scene := { visible := j == 0 }, info := p })
        else none) ∧
      (∀ j, j < s.phoneModels.length ↔ ∃ i, (i, Outcome.loaded) ∈ events ∧ j ≤ i) ∧
      ((∃ i, events.getLast? = some (i, Outcome.loaded)) →
        s.nextButtons = s0.nextButtons + 1 ∧
        s.infoContainers =
          (match elemAt s.phoneModels 0 with
           | some m => setFirstContainer (s0.infoContainers ++ [""]) (renderInfo m.info)
           | none => s0.infoContainers ++ [""])) ∧
      (¬ (∃ i, events.getLast? = some (i, Outcome.loaded)) →
        s.nextButtons = s0.nextButtons ∧ s.infoContainers = s0.infoContainers) := by
  obtain ⟨happ, hdata, _, _, _⟩ := loadModels_spec s0 data hne
  obtain ⟨hvalid, hcount, _, _⟩ := completionOrder_facts s0 data events hne hco
  obtain ⟨b2, hs, _, _, _, hcur, hres, hslot, hlen, hpos, hneg⟩ :=
    settleAll_spec events (loadModels s0 data) (by
      intro e he
      rw [hdata]
      exact (hvalid e he).1)
  rw [hdata] at hslot hpos hneg
  rw [happ] at hcur hres hslot hlen hpos hneg
  refine ⟨b2.app, by simp [afterLoads, hs], hcur, hres, ?_, ?_, ?_, ?_⟩
  · intro j
    rw [hslot j]
    simp [elemAt_nil]
  · intro j
    rw [hlen j]
    simp
  · intro hlast
    exact hpos hcount hlast
  · intro hlast
    exact hneg (le_of_eq hcount) (fun h => hlast h.2)

/-! ## Invariants of the cycle -/

/-- A property kept by every call of `showNextModel` holds after any number of calls,
and the calls all return. -/
theorem showNextModelN_invariant (P : AppState → Prop)
    (hstep : ∀ s s2, showNextModel s = Except.ok s2 → P s → P s2)
    (k : Nat) (s : AppState) (h0 : P s) :
    ∃ s2, showNextModelN k s = Except.ok s2 ∧ P s2 := by
  induction k with
  | zero => exact ⟨s, rfl, h0⟩
  | succ j ih =>
    obtain ⟨s1, h1, hp1⟩ := ih
    obtain ⟨s2, h2⟩ := showNextModel_ok s1
    exact ⟨s2, by rw [showNextModelN_succ j s s1 h1, h2], hstep s1 s2 h2 hp1⟩

theorem afterClicks_eq (data : List PhoneRecord) (events : List (Nat × Outcome)) (k : Nat)
    (s : AppState) (h : afterLoads freshStart data events = Except.ok s) :
    afterClicks data events k = showNextModelN k s := by
  simp [afterClicks, h]

theorem visibleOnlyAtCurrent_step (s s2 : AppState) (h : showNextModel s = Except.ok s2)
    (hinv : VisibleOnlyAtCurrent s) : VisibleOnlyAtCurrent s2 := by
  by_cases hlen : s.phoneModels.length ≤ 1
  · rw [showNextModel_short s hlen] at h
    cases h
    exact hinv
  · obtain ⟨s3, h3, hcur, _, hslot, _⟩ := showNextModel_spec s (by omega)
    rw [h] at h3
    cases h3
    intro i m hm hv
    rw [hslot i] at hm
    cases hq : elemAt s.phoneModels i with
    | none => rw [hq] at hm; cases hm
    | some m0 =>
      rw [hq] at hm
      simp only [Option.map_some', Option.some.injEq] at hm
      subst hm
      by_cases h1 : i = s2.currentModelIndex
      · exact h1
      · by_cases h2 : i = s.currentModelIndex
        · dsimp only at hv
          rw [if_neg h1, if_pos h2] at hv
          cases hv
        · simp only [h1, h2, if_false] at hv
          exact absurd (hinv i m0 hq hv) h2

theorem visibleOnlyAtCurrent_afterLoads (data : List PhoneRecord)
    (events : List (Nat × Outcome)) (hne : data ≠ [])
    (hco : CompletionOrder (loadModels freshStart data) events) (s : AppState)
    (h : afterLoads freshStart data events = Except.ok s) : VisibleOnlyAtCurrent s := by
  obtain ⟨s1, h1, hcur, _, hslot, _⟩ := afterLoads_spec freshStart data events hne hco
  rw [h] at h1
  cases h1
  intro i m hm hv
  rw [hslot i] at hm
  rw [hcur]
  split at hm
  · cases hd : data[i]? with
    | none => rw [hd] at hm; cases hm
    | some p =>
      rw [hd] at hm
      simp only [Option.map_some', Option.some.injEq] at hm
      subst hm
      simpa [freshStart] using hv
  · cases hm

/-! ## The claims about loading -/

/-- C1 (evaluated at two inputs on which the code departs from it): with records A and B
whose requests settle as "A loaded, then B failed", both attempts are counted
(`loadedCount` equals the number of records) and yet no panel and no button exist, so
`createPhoneInfoUI` was never invoked; the same holds for a list whose only record has an
empty `model_path`, where no callback runs at all. -/
theorem C1_panel_never_built_unless_last_attempt_succeeds :
    (CompletionOrder
        (loadModels freshStart
          [phoneNamed "A" (some "a.glb"), phoneNamed "B" (some "b.glb")])
        [(0, Outcome.loaded), (1, Outcome.failed)] ∧
      ∃ b, settleAll
          (loadModels freshStart
            [phoneNamed "A" (some "a.glb"), phoneNamed "B" (some "b.glb")])
          [(0, Outcome.loaded), (1, Outcome.failed)] = Except.ok b ∧
        b.loadedCount = b.phonesData.length ∧
        b.app.infoContainers = [] ∧ b.app.nextButtons = 0) ∧
    (CompletionOrder (loadModels freshStart [phoneNamed "A" (some "")]) [] ∧
      ∃ b, settleAll (loadModels freshStart [phoneNamed "A" (some "")]) [] = Except.ok b ∧
        b.loadedCount = b.phonesData.length ∧
        b.app.infoContainers = [] ∧ b.app.nextButtons = 0) := by
  refine ⟨⟨?_, _, rfl, rfl, rfl, rfl⟩, ⟨?_, _, rfl, rfl, rfl, rfl⟩⟩
  · exact List.Perm.refl _
  · exact List.Perm.refl _

/-- C2: after one `loadModels` call on a non-empty list (made in any state) and all of
its callbacks in any completion order, slot `i` of `phoneModels` is populated if and only
if record `i` has a non-empty `model_path` and its load succeeded; a populated slot `i`
holds record `i` as its `info`; and every other completion order of the same outcomes
ends with the same collection. -/
theorem C2_slots_keyed_by_original_index (s0 : AppState) (data : List PhoneRecord)
    (events : List (Nat × Outcome)) (hne : data ≠ [])
    (hco : CompletionOrder (loadModels s0 data) events) :
    ∃ s, afterLoads s0 data events = Except.ok s ∧
      (∀ i, (elemAt s.phoneModels i).isSome = true ↔
        ∃ p, data[i]? = some p ∧ truthyPath p.model_path = true ∧
          (i, Outcome.loaded) ∈ events) ∧
      (∀ i m, elemAt s.phoneModels i = some m → data[i]? = some m.info) ∧
      (∀ events2 : List (Nat × Outcome), events2.Perm events →
        ∃ s2, afterLoads s0 data events2 = Except.ok s2 ∧
          s2.phoneModels = s.phoneModels) := by
  obtain ⟨s, hs, _, _, hslot, hlen, _⟩ := afterLoads_spec s0 data events hne hco
  obtain ⟨hvalid, _, _, _⟩ := completionOrder_facts s0 data events hne hco
  refine ⟨s, hs, ?_, ?_, ?_⟩
  · intro i
    rw [hslot i]
    constructor
    · intro h
      by_cases hin : (i, Outcome.loaded) ∈ events
      · obtain ⟨_, p, hp, ht⟩ := hvalid _ hin
        exact ⟨p, hp, ht, hin⟩
      · simp [hin] at h
    · rintro ⟨p, hp, _, hin⟩
      simp [hin, hp]
  · intro i m hm
    rw [hslot i] at hm
    split at hm
    · cases hd : data[i]? with
      | none => rw [hd] at hm; cases hm
      | some p =>
        rw [hd] at hm
        simp only [Option.map_some', Option.some.injEq] at hm
        subst hm
        rfl
    · cases hm
  · intro events2 hperm
    have hco2 : CompletionOrder (loadModels s0 data) events2 := by
      unfold CompletionOrder at hco ⊢
      exact (hperm.map Prod.fst).trans hco
    obtain ⟨s2, hs2, _, _, hslot2, hlen2, _⟩ := afterLoads_spec s0 data events2 hne hco2
    refine ⟨s2, hs2, ?_⟩
    have hiff : ∀ j, j < s2.phoneModels.length ↔ j < s.phoneModels.length := by
      intro j
      rw [hlen2 j, hlen j]
      constructor
      · rintro ⟨i, hi, hji⟩; exact ⟨i, hperm.mem_iff.mp hi, hji⟩
      · rintro ⟨i, hi, hji⟩; exact ⟨i, hperm.mem_iff.mpr hi, hji⟩
    apply array_ext
    · apply Nat.le_antisymm
      · by_contra hc
        have := (hiff s.phoneModels.length).mp (by omega)
        omega
      · by_contra hc
        have := (hiff s2.phoneModels.length).mpr (by omega)
        omega
    · intro j
      rw [hslot2 j, hslot j]
      by_cases hin : (j, Outcome.loaded) ∈ events
      · rw [if_pos hin, if_pos (hperm.mem_iff.mpr hin)]
      · rw [if_neg hin, if_neg (fun h => hin (hperm.mem_iff.mp h))]

/-- Witness of C2: records A, B (empty path), C with the completion order
"C loaded, then A failed". -/
theorem C2_slots_keyed_by_original_index_witness :
    ∃ s, afterLoads freshStart
        [phoneNamed "A" (some "a.glb"), phoneNamed "B" (some ""), phoneNamed "C" (some "c.glb")]
        [(2, Outcome.loaded), (0, Outcome.failed)] = Except.ok s ∧
      (∀ i, (elemAt s.phoneModels i).isSome = true ↔
        ∃ p, [phoneNamed "A" (some "a.glb"), phoneNamed "B" (some ""),
              phoneNamed "C" (some "c.glb")][i]? = some p ∧
          truthyPath p.model_path = true ∧
          (i, Outcome.loaded) ∈ [(2, Outcome.loaded), (0, Outcome.failed)]) ∧
      (∀ i m, elemAt s.phoneModels i = some m →
        [phoneNamed "A" (some "a.glb"), phoneNamed "B" (some ""),
         phoneNamed "C" (some "c.glb")][i]? = some m.info) ∧
      (∀ events2 : List (Nat × Outcome),
        events2.Perm [(2, Outcome.loaded), (0, Outcome.failed)] →
        ∃ s2, afterLoads freshStart
            [phoneNamed "A" (some "a.glb"), phoneNamed "B" (some ""),
             phoneNamed "C" (some "c.glb")] events2 = Except.ok s2 ∧
          s2.phoneModels = s.phoneModels) :=
  C2_slots_keyed_by_original_index freshStart
    [phoneNamed "A" (some "a.glb"), phoneNamed "B" (some ""), phoneNamed "C" (some "c.glb")]
    [(2, Outcome.loaded), (0, Outcome.failed)] (by simp)
    (List.Perm.swap 0 2 [])

/-! ## The claims about the cycle -/

/-- C3: in every state reached from the fresh start by one `loadModels` call on a
non-empty list, all of its requests settling in any order and with any outcomes, and then
any number of `showNextModel` calls, every visible model of `phoneModels` sits at
`currentModelIndex`; hence at most one model is visible. -/
theorem C3_at_most_one_model_visible (data : List PhoneRecord)
    (events : List (Nat × Outcome)) (k : Nat) (hne : data ≠ [])
    (hco : CompletionOrder (loadModels freshStart data) events) :
    ∃ s, afterClicks data events k = Except.ok s ∧
      (∀ i m, elemAt s.phoneModels i = some m → m.scene.visible = true →
        i = s.currentModelIndex) ∧
      (∀ i j mi mj, elemAt s.phoneModels i = some mi → mi.scene.visible = true →
        elemAt s.phoneModels j = some mj → mj.scene.visible = true → i = j) := by
  obtain ⟨s0, h0, _⟩ := afterLoads_spec freshStart data events hne hco
  obtain ⟨s, hs, hinv⟩ := showNextModelN_invariant VisibleOnlyAtCurrent
    visibleOnlyAtCurrent_step k s0 (visibleOnlyAtCurrent_afterLoads data events hne hco s0 h0)
  refine ⟨s, by rw [afterClicks_eq data events k s0 h0, hs], hinv, ?_⟩
  intro i j mi mj hi hvi hj hvj
  rw [hinv i mi hi hvi, hinv j mj hj hvj]

/-- Witness of C3: records A, B, C whose requests settle as "B failed, C loaded, A loaded",
followed by four clicks. -/
theorem C3_at_most_one_model_visible_witness :
    ∃ s, afterClicks
        [phoneNamed "A" (some "a.glb"), phoneNamed "B" (some "b.glb"),
         phoneNamed "C" (some "c.glb")]
        [(1, Outcome.failed), (2, Outcome.loaded), (0, Outcome.loaded)] 4 = Except.ok s ∧
      (∀ i m, elemAt s.phoneModels i = some m → m.scene.visible = true →
        i = s.currentModelIndex) ∧
      (∀ i j mi mj, elemAt s.phoneModels i = some mi → mi.scene.visible = true →
        elemAt s.phoneModels j = some mj → mj.scene.visible = true → i = j) :=
  C3_at_most_one_model_visible
    [phoneNamed "A" (some "a.glb"), phoneNamed "B" (some "b.glb"),
     phoneNamed "C" (some "c.glb")]
    [(1, Outcome.failed), (2, Outcome.loaded), (0, Outcome.loaded)] 4 (by simp)
    (by decide)

theorem showNextModelN_short (k : Nat) (s : AppState) (hlen : s.phoneModels.length ≤ 1) :
    showNextModelN k s = Except.ok s := by
  induction k with
  | zero => rfl
  | succ j ih => rw [showNextModelN_succ j s s ih, showNextModel_short s hlen]

/-- After `k` calls on a collection of length `L` at least 2, the active index has
advanced by `k` modulo `L`. -/
theorem showNextModelN_index (k : Nat) (s : AppState) (hlen : 1 < s.phoneModels.length)
    (hcur : s.currentModelIndex < s.phoneModels.length) :
    ∃ s2, showNextModelN k s = Except.ok s2 ∧
      s2.phoneModels.length = s.phoneModels.length ∧
      s2.currentModelIndex = (s.currentModelIndex + k) % s.phoneModels.length := by
  induction k with
  | zero => exact ⟨s, rfl, rfl, by rw [Nat.add_zero, Nat.mod_eq_of_lt hcur]⟩
  | succ j ih =>
    obtain ⟨s1, h1, hl1, hc1⟩ := ih
    obtain ⟨s2, h2, hc2, hl2, _⟩ := showNextModel_spec s1 (by omega)
    refine ⟨s2, by rw [showNextModelN_succ j s s1 h1, h2], by rw [hl2, hl1], ?_⟩
    rw [hc2, hc1, hl1, Nat.mod_add_mod, Nat.add_assoc]

theorem indexInRange_step (s s2 : AppState) (h : showNextModel s = Except.ok s2)
    (hinv : IndexInRange s) : IndexInRange s2 := by
  by_cases hlen : s.phoneModels.length ≤ 1
  · rw [showNextModel_short s hlen] at h
    cases h
    exact hinv
  · obtain ⟨s3, h3, hcur, hl, _⟩ := showNextModel_spec s (by omega)
    rw [h] at h3
    cases h3
    left
    rw [hcur, hl]
    exact Nat.mod_lt _ (by omega)

theorem indexInRange_afterLoads (data : List PhoneRecord) (events : List (Nat × Outcome))
    (hco : CompletionOrder (loadModels freshStart data) events) :
    ∃ s, afterLoads freshStart data events = Except.ok s ∧ IndexInRange s := by
  by_cases hne : data = []
  · subst hne
    have hev : events = [] := by
      have h : (events.map Prod.fst).Perm [] := hco
      simpa using h.eq_nil
    subst hev
    exact ⟨freshStart, rfl, Or.inr (by simp [freshStart])⟩
  · obtain ⟨s, hs, hcur, _⟩ := afterLoads_spec freshStart data events hne hco
    refine ⟨s, hs, ?_⟩
    unfold IndexInRange
    rw [hcur]
    simp only [freshStart]
    omega

/-- As many calls as the collection is long bring the active index back. -/
theorem showNextModelN_length_returns (s : AppState) (hinv : IndexInRange s) :
    ∃ s2, showNextModelN s.phoneModels.length s = Except.ok s2 ∧
      s2.currentModelIndex = s.currentModelIndex := by
  by_cases hlen : s.phoneModels.length ≤ 1
  · exact ⟨s, showNextModelN_short _ s hlen, rfl⟩
  · have hcur : s.currentModelIndex < s.phoneModels.length := by
      rcases hinv with h | h
      · exact h
      · exact absurd h hlen
    obtain ⟨s2, h2, _, hc2⟩ := showNextModelN_index s.phoneModels.length s (by omega) hcur
    exact ⟨s2, h2, by rw [hc2, Nat.add_mod_right, Nat.mod_eq_of_lt hcur]⟩

/-- C4 (as the code has it): in every state reached by one `loadModels` call, all of its
requests settling, and any number of `showNextModel` calls, calling `showNextModel`
exactly `phoneModels.length` times returns `currentModelIndex` to the value it had before
the first of these calls; this is `N` calls, `N` the number of populated slots, when no
slot of the collection is empty. -/
theorem C4_index_returns_after_length_calls (data : List PhoneRecord)
    (events : List (Nat × Outcome)) (k : Nat)
    (hco : CompletionOrder (loadModels freshStart data) events) :
    ∃ s, afterClicks data events k = Except.ok s ∧
      (∃ s2, showNextModelN s.phoneModels.length s = Except.ok s2 ∧
        s2.currentModelIndex = s.currentModelIndex) ∧
      (populatedCount s.phoneModels = s.phoneModels.length →
        ∃ s2, showNextModelN (populatedCount s.phoneModels) s = Except.ok s2 ∧
          s2.currentModelIndex = s.currentModelIndex) := by
  obtain ⟨s0, h0, hinv0⟩ := indexInRange_afterLoads data events hco
  obtain ⟨s, hs, hinv⟩ := showNextModelN_invariant IndexInRange indexInRange_step k s0 hinv0
  refine ⟨s, by rw [afterClicks_eq data events k s0 h0, hs],
    showNextModelN_length_returns s hinv, ?_⟩
  intro hN
  rw [hN]
  exact showNextModelN_length_returns s hinv

/-- Witness of C4: records A, B, C with B failing, after one click. -/
theorem C4_index_returns_after_length_calls_witness :
    ∃ s, afterClicks
        [phoneNamed "A" (some "a.glb"), phoneNamed "B" (some "b.glb"),
         phoneNamed "C" (some "c.glb")]
        [(1, Outcome.failed), (0, Outcome.loaded), (2, Outcome.loaded)] 1 = Except.ok s ∧
      (∃ s2, showNextModelN s.phoneModels.length s = Except.ok s2 ∧
        s2.currentModelIndex = s.currentModelIndex) ∧
      (populatedCount s.phoneModels = s.phoneModels.length →
        ∃ s2, showNextModelN (populatedCount s.phoneModels) s = Except.ok s2 ∧
          s2.currentModelIndex = s.currentModelIndex) :=
  C4_index_returns_after_length_calls
    [phoneNamed "A" (some "a.glb"), phoneNamed "B" (some "b.glb"),
     phoneNamed "C" (some "c.glb")]
    [(1, Outcome.failed), (0, Outcome.loaded), (2, Outcome.loaded)] 1 (by decide)

/-- C4 as stated fails: records A, B, C whose requests settle as "B failed, A loaded,
C loaded" leave the collection `[A, empty, C]` with `N = 2` populated slots, and two calls
of `showNextModel` move `currentModelIndex` from 0 to 2. -/
theorem C4_populated_count_calls_do_not_return :
    CompletionOrder
        (loadModels freshStart
          [phoneNamed "A" (some "a.glb"), phoneNamed "B" (some "b.glb"),
           phoneNamed "C" (some "c.glb")])
        [(1, Outcome.failed), (0, Outcome.loaded), (2, Outcome.loaded)] ∧
    ∃ s s2, afterLoads freshStart
        [phoneNamed "A" (some "a.glb"), phoneNamed "B" (some "b.glb"),
         phoneNamed "C" (some "c.glb")]
        [(1, Outcome.failed), (0, Outcome.loaded), (2, Outcome.loaded)] = Except.ok s ∧
      populatedCount s.phoneModels = 2 ∧
      showNextModelN (populatedCount s.phoneModels) s = Except.ok s2 ∧
      s.currentModelIndex = 0 ∧ s2.currentModelIndex = 2 ∧
      s2.currentModelIndex ≠ s.currentModelIndex := by
  refine ⟨by decide, _, _, rfl, rfl, rfl, rfl, rfl, by decide⟩

theorem panelMatches_step (s s2 : AppState) (h : showNextModel s = Except.ok s2)
    (hinv : PanelMatchesPopulatedActive s) : PanelMatchesPopulatedActive s2 := by
  by_cases hlen : s.phoneModels.length ≤ 1
  · rw [showNextModel_short s hlen] at h
    cases h
    exact hinv
  · obtain ⟨s3, h3, _, _, hslot, hinfo, _⟩ := showNextModel_spec s (by omega)
    rw [h] at h3
    cases h3
    obtain ⟨c, hc, _⟩ := hinv
    have hs := hslot s2.currentModelIndex
    cases hq : elemAt s.phoneModels s2.currentModelIndex with
    | none =>
      rw [hq] at hs hinfo
      refine ⟨c, by rw [hinfo, hc], ?_⟩
      intro m hm
      rw [hs] at hm
      cases hm
    | some m0 =>
      rw [hq] at hs hinfo
      refine ⟨renderInfo m0.info, by rw [hinfo, hc]; rfl, ?_⟩
      intro m hm
      rw [hs] at hm
      simp only [Option.map_some', Option.some.injEq] at hm
      subst hm
      rfl

theorem panelMatches_afterLoads (data : List PhoneRecord) (events : List (Nat × Outcome))
    (hne : data ≠ []) (hco : CompletionOrder (loadModels freshStart data) events)
    (hlast : ∃ i, events.getLast? = some (i, Outcome.loaded)) :
    ∃ s, afterLoads freshStart data events = Except.ok s ∧ PanelMatchesPopulatedActive s := by
  obtain ⟨s, hs, hcur, _, _, _, hpos, _⟩ := afterLoads_spec freshStart data events hne hco
  refine ⟨s, hs, ?_⟩
  obtain ⟨_, hinfo⟩ := hpos hlast
  unfold PanelMatchesPopulatedActive
  rw [hcur]
  simp only [freshStart] at hinfo ⊢
  cases hq : elemAt s.phoneModels 0 with
  | none =>
    rw [hq] at hinfo
    exact ⟨"", by rw [hinfo]; rfl, by intro m hm; cases hm⟩
  | some m0 =>
    rw [hq] at hinfo
    refine ⟨renderInfo m0.info, by rw [hinfo]; rfl, ?_⟩
    intro m hm
    cases hm
    rfl

/-- C5 (as the code has it): for every non-empty phone list, when the last request to
settle is a successful load, then after all loads have settled and after any number of
`showNextModel` calls there is exactly one info panel, and whenever the active slot
`phoneModels[currentModelIndex]` is populated the panel shows the content rendered from
its `info`. -/
theorem C5_panel_shows_populated_active_record (data : List PhoneRecord)
    (events : List (Nat × Outcome)) (k : Nat) (hne : data ≠ [])
    (hco : CompletionOrder (loadModels freshStart data) events)
    (hlast : ∃ i, events.getLast? = some (i, Outcome.loaded)) :
    ∃ s c, afterClicks data events k = Except.ok s ∧ s.infoContainers = [c] ∧
      panelContent s = some c ∧
      ∀ m, elemAt s.phoneModels s.currentModelIndex = some m → c = renderInfo m.info := by
  obtain ⟨s0, h0, hinv0⟩ := panelMatches_afterLoads data events hne hco hlast
  obtain ⟨s, hs, c, hc, hm⟩ :=
    showNextModelN_invariant PanelMatchesPopulatedActive panelMatches_step k s0 hinv0
  exact ⟨s, c, by rw [afterClicks_eq data events k s0 h0, hs], hc,
    by simp [panelContent, hc], hm⟩

/-- Witness of C5: records A, B, C whose requests settle as "A loaded, B failed,
C loaded", after two clicks. -/
theorem C5_panel_shows_populated_active_record_witness :
    ∃ s c, afterClicks
        [phoneNamed "A" (some "a.glb"), phoneNamed "B" (some "b.glb"),
         phoneNamed "C" (some "c.glb")]
        [(0, Outcome.loaded), (1, Outcome.failed), (2, Outcome.loaded)] 2 = Except.ok s ∧
      s.infoContainers = [c] ∧ panelContent s = some c ∧
      ∀ m, elemAt s.phoneModels s.currentModelIndex = some m → c = renderInfo m.info :=
  C5_panel_shows_populated_active_record
    [phoneNamed "A" (some "a.glb"), phoneNamed "B" (some "b.glb"),
     phoneNamed "C" (some "c.glb")]
    [(0, Outcome.loaded), (1, Outcome.failed), (2, Outcome.loaded)] 2 (by simp)
    (by decide) ⟨2, rfl⟩

/-- C5 as stated fails: records A, B, C whose requests settle as "A loaded, B failed,
C loaded" build the panel with A; one call of `showNextModel` moves the active index to
the empty slot 1, which has no backing record, and the panel still shows A (and not
record B of position 1 either). -/
theorem C5_panel_keeps_old_record_on_empty_slot :
    CompletionOrder
        (loadModels freshStart
          [phoneNamed "A" (some "a.glb"), phoneNamed "B" (some "b.glb"),
           phoneNamed "C" (some "c.glb")])
        [(0, Outcome.loaded), (1, Outcome.failed), (2, Outcome.loaded)] ∧
    ∃ s, afterClicks
        [phoneNamed "A" (some "a.glb"), phoneNamed "B" (some "b.glb"),
         phoneNamed "C" (some "c.glb")]
        [(0, Outcome.loaded), (1, Outcome.failed), (2, Outcome.loaded)] 1 = Except.ok s ∧
      s.currentModelIndex = 1 ∧
      elemAt s.phoneModels s.currentModelIndex = none ∧
      panelContent s = some (renderInfo (phoneNamed "A" (some "a.glb"))) ∧
      panelContent s ≠ some (renderInfo (phoneNamed "B" (some "b.glb"))) ∧
      ¬ PanelShowsActiveRecord s := by
  refine ⟨by decide, _, rfl, rfl, rfl, rfl, by decide, ?_⟩
  rintro ⟨m, hm, _⟩
  cases hm

/-! ## Records without a model path -/

theorem slotEmpty_step (i : Nat) (s s2 : AppState) (h : showNextModel s = Except.ok s2)
    (hinv : SlotEmpty i s) : SlotEmpty i s2 := by
  by_cases hlen : s.phoneModels.length ≤ 1
  · rw [showNextModel_short s hlen] at h
    cases h
    exact hinv
  · obtain ⟨s3, h3, _, _, hslot, _⟩ := showNextModel_spec s (by omega)
    rw [h] at h3
    cases h3
    unfold SlotEmpty at hinv ⊢
    rw [hslot i, hinv]
    rfl

/-- C6 (as the code has it): for every phone list with a record without a model path at
position `i`, after all loads settle and after any number of `showNextModel` calls, the
next call of `showNextModel` returns without an error, slot `i` of `phoneModels` is
empty, and whenever `currentModelIndex` equals `i` no model is visible. -/
theorem C6_pathless_record_has_no_slot (data : List PhoneRecord)
    (events : List (Nat × Outcome)) (i : Nat) (p : PhoneRecord) (k : Nat)
    (hp : data[i]? = some p) (hpath : truthyPath p.model_path = false)
    (hco : CompletionOrder (loadModels freshStart data) events) :
    ∃ s, afterClicks data events k = Except.ok s ∧
      (∃ s2, showNextModel s = Except.ok s2) ∧
      elemAt s.phoneModels i = none ∧
      (s.currentModelIndex = i →
        ∀ j m, elemAt s.phoneModels j = some m → m.scene.visible = false) := by
  have hne : data ≠ [] := by
    intro h
    subst h
    simp at hp
  obtain ⟨s0, h0, _, _, hslot, _⟩ := afterLoads_spec freshStart data events hne hco
  obtain ⟨hvalid, _⟩ := completionOrder_facts freshStart data events hne hco
  have hempty0 : SlotEmpty i s0 := by
    unfold SlotEmpty
    rw [hslot i, if_neg]
    intro hin
    obtain ⟨_, q, hq, ht⟩ := hvalid _ hin
    simp only at hq
    rw [hp] at hq
    cases hq
    rw [hpath] at ht
    cases ht
  obtain ⟨s, hs, hempty, hvis⟩ := showNextModelN_invariant
    (fun s => SlotEmpty i s ∧ VisibleOnlyAtCurrent s)
    (fun a b hab hinv => ⟨slotEmpty_step i a b hab hinv.1,
      visibleOnlyAtCurrent_step a b hab hinv.2⟩)
    k s0 ⟨hempty0, visibleOnlyAtCurrent_afterLoads data events hne hco s0 h0⟩
  refine ⟨s, by rw [afterClicks_eq data events k s0 h0, hs], showNextModel_ok s, hempty, ?_⟩
  intro hcur j m hm
  cases hv : m.scene.visible with
  | false => rfl
  | true =>
    have hj := hvis j m hm hv
    rw [hcur] at hj
    subst hj
    unfold SlotEmpty at hempty
    rw [hempty] at hm
    cases hm

/-- Witness of C6: records A, B (empty path), C, after one click. -/
theorem C6_pathless_record_has_no_slot_witness :
    ∃ s, afterClicks
        [phoneNamed "A" (some "a.glb"), phoneNamed "B" (some ""), phoneNamed "C" (some "c.glb")]
        [(2, Outcome.loaded), (0, Outcome.loaded)] 1 = Except.ok s ∧
      (∃ s2, showNextModel s = Except.ok s2) ∧
      elemAt s.phoneModels 1 = none ∧
      (s.currentModelIndex = 1 →
        ∀ j m, elemAt s.phoneModels j = some m → m.scene.visible = false) :=
  C6_pathless_record_has_no_slot
    [phoneNamed "A" (some "a.glb"), phoneNamed "B" (some ""), phoneNamed "C" (some "c.glb")]
    [(2, Outcome.loaded), (0, Outcome.loaded)] 1 (phoneNamed "B" (some "")) 1 rfl rfl
    (by decide)

/-- C6 as stated fails: with records A, B (empty path), C, both requests succeeding, one
call of `showNextModel` leaves `currentModelIndex` equal to 1, the position of the record
without a model path. -/
theorem C6_index_lands_on_pathless_record :
    CompletionOrder
        (loadModels freshStart
          [phoneNamed "A" (some "a.glb"), phoneNamed "B" (some ""),
           phoneNamed "C" (some "c.glb")])
        [(0, Outcome.loaded), (2, Outcome.loaded)] ∧
    truthyPath (phoneNamed "B" (some "")).model_path = false ∧
    ∃ s, afterClicks
        [phoneNamed "A" (some "a.glb"), phoneNamed "B" (some ""), phoneNamed "C" (some "c.glb")]
        [(0, Outcome.loaded), (2, Outcome.loaded)] 1 = Except.ok s ∧
      s.currentModelIndex = 1 ∧ elemAt s.phoneModels 1 = none :=
  ⟨by decide, rfl, _, rfl, rfl, rfl⟩

/-! ## Short collections -/

/-- C10: whenever `phoneModels` has length at most 1, `showNextModel` returns the state
unchanged (the active index, every visibility flag, the panels and their content, the
buttons, the number of control resets), and so does any number of calls. -/
theorem C10_short_collection_is_left_alone (s : AppState) (k : Nat)
    (hlen : s.phoneModels.length ≤ 1) :
    showNextModel s = Except.ok s ∧ showNextModelN k s = Except.ok s := by
  refine ⟨by simp [showNextModel, hlen], ?_⟩
  induction k with
  | zero => rfl
  | succ j ih => simp [showNextModelN, ih, showNextModel, hlen]

/-- Witness of C10: a list whose only record has an empty `model_path` leaves the
collection empty, and `showNextModel` then changes nothing. -/
theorem C10_short_collection_is_left_alone_witness :
    afterLoads freshStart [phoneNamed "A" (some "")] [] = Except.ok freshStart ∧
    freshStart.phoneModels.length ≤ 1 ∧
    showNextModel freshStart = Except.ok freshStart ∧
    showNextModelN 3 freshStart = Except.ok freshStart :=
  ⟨rfl, by decide, C10_short_collection_is_left_alone freshStart 3 (by decide)⟩

/-! ## All records loaded -/

theorem showsRecord_afterLoads (data : List PhoneRecord) (events : List (Nat × Outcome))
    (hne : data ≠ []) (hpaths : ∀ p ∈ data, truthyPath p.model_path = true)
    (hall : ∀ e ∈ events, e.2 = Outcome.loaded)
    (hco : CompletionOrder (loadModels freshStart data) events) :
    ∃ s, afterLoads freshStart data events = Except.ok s ∧ ShowsRecord data 0 s := by
  obtain ⟨s, hs, hcur, _, hslot, hlen, hpos, _⟩ :=
    afterLoads_spec freshStart data events hne hco
  obtain ⟨hvalid, _, _, hex⟩ := completionOrder_facts freshStart data events hne hco
  have hloaded : ∀ j p, data[j]? = some p → (j, Outcome.loaded) ∈ events := by
    intro j p hp
    obtain ⟨o, ho⟩ := hex j p hp (hpaths p (List.getElem?_mem hp))
    have := hall _ ho
    simp only at this
    rw [this] at ho
    exact ho
  have hpos0 : 0 < data.length := List.length_pos.mpr hne
  have h0 : data[0]? = some data[0] := List.getElem?_eq_getElem hpos0
  have hlast : ∃ i, events.getLast? = some (i, Outcome.loaded) := by
    have hne2 : events ≠ [] := List.ne_nil_of_mem (hloaded 0 _ h0)
    refine ⟨(events.getLast hne2).1, ?_⟩
    rw [List.getLast?_eq_getLast events hne2]
    have := hall _ (List.getLast_mem hne2)
    rw [← this]
  have hslots : ∀ j p, data[j]? = some p →
      elemAt s.phoneModels j = some { scene := { visible := j == 0 }, info := p } := by
    intro j p hp
    rw [hslot j, if_pos (hloaded j p hp), hp]
    rfl
  refine ⟨s, hs, ?_, ?_, ?_, ?_⟩
  · apply Nat.le_antisymm
    · by_contra hc
      obtain ⟨i, hi, hji⟩ := (hlen data.length).mp (by omega)
      have := (hvalid _ hi).1
      simp only at this
      omega
    · by_contra hc
      have hlt : s.phoneModels.length < data.length := by omega
      have := (hlen s.phoneModels.length).mpr
        ⟨_, hloaded _ _ (List.getElem?_eq_getElem hlt), le_refl _⟩
      omega
  · rw [hcur, Nat.zero_mod]
    rfl
  · refine ⟨data[0], by rw [Nat.zero_mod]; exact h0, ?_⟩
    obtain ⟨_, hinfo⟩ := hpos hlast
    rw [hinfo, hslots 0 _ h0]
    rfl
  · intro j p hp
    rw [hslots j p hp, Nat.zero_mod]
    cases j <;> rfl

theorem showsRecord_step (data : List PhoneRecord) (k : Nat) (s s2 : AppState)
    (h : showNextModel s = Except.ok s2) (hinv : ShowsRecord data k s) :
    ShowsRecord data (k + 1) s2 := by
  obtain ⟨hl, hc, ⟨p, hp, hinfo⟩, hslots⟩ := hinv
  by_cases hlen : s.phoneModels.length ≤ 1
  · rw [showNextModel_short s hlen] at h
    cases h
    have hmod : ∀ a, a % data.length = 0 := by
      intro a
      have hlt : a % data.length < data.length :=
        Nat.mod_lt _ (by
          by_contra hc0
          have hz : data.length = 0 := by omega
          rw [hz] at hp
          simp at hp
          have := List.length_eq_zero.mp hz
          subst this
          simp at hp)
      omega
    refine ⟨hl, ?_, ⟨p, ?_, hinfo⟩, ?_⟩
    · rw [hc, hmod k, hmod (k + 1)]
    · rw [hmod (k + 1), ← hmod k]; exact hp
    · intro j q hq
      rw [hslots j q hq, hmod k, hmod (k + 1)]
  · obtain ⟨s3, h3, hcur, hl2, hslot, hinfo2, _⟩ := showNextModel_spec s (by omega)
    rw [h] at h3
    cases h3
    have hnext : s2.currentModelIndex = (k + 1) % data.length := by
      rw [hcur, hc, hl, Nat.mod_add_mod]
    have hlt : (k + 1) % data.length < data.length := Nat.mod_lt _ (by omega)
    have hq : data[(k + 1) % data.length]? = some data[(k + 1) % data.length] :=
      List.getElem?_eq_getElem hlt
    refine ⟨by rw [hl2, hl], hnext, ⟨_, hq, ?_⟩, ?_⟩
    · rw [hinfo2, hnext, hslots _ _ hq, hinfo]
      rfl
    · intro j q hjq
      rw [hslot j, hslots j q hjq, hnext, hc]
      simp only [Option.map_some', Option.some.injEq, PhoneModel.mk.injEq, and_true,
        SceneHandle.mk.injEq]
      by_cases h1 : j = (k + 1) % data.length
      · simp [h1]
      · by_cases h2 : j = k % data.length
        · simp [h1, h2]
        · simp [h1, h2]

theorem showsRecord_clicks (data : List PhoneRecord) (k : Nat) (s : AppState)
    (h0 : ShowsRecord data 0 s) :
    ∃ s2, showNextModelN k s = Except.ok s2 ∧ ShowsRecord data k s2 := by
  induction k with
  | zero => exact ⟨s, rfl, h0⟩
  | succ j ih =>
    obtain ⟨s1, h1, hq1⟩ := ih
    obtain ⟨s2, h2⟩ := showNextModel_ok s1
    exact ⟨s2, by rw [showNextModelN_succ j s s1 h1, h2], showsRecord_step data j s1 s2 h2 hq1⟩

/-- C7: for every list of `n ≥ 1` records that all have a non-empty `model_path` and
whose loads all succeed, in any completion order, after `k` calls of `showNextModel`
(`k = 0`: right after the last load) the active index is `k mod n`, the single info panel
shows record `k mod n`, the model of that record is visible, and no other model is. -/
theorem C7_panel_and_model_follow_k_mod_n (data : List PhoneRecord)
    (events : List (Nat × Outcome)) (k : Nat) (hne : data ≠ [])
    (hpaths : ∀ p ∈ data, truthyPath p.model_path = true)
    (hall : ∀ e ∈ events, e.2 = Outcome.loaded)
    (hco : CompletionOrder (loadModels freshStart data) events) :
    ∃ s p, afterClicks data events k = Except.ok s ∧
      data[k % data.length]? = some p ∧
      s.currentModelIndex = k % data.length ∧
      s.infoContainers = [renderInfo p] ∧
      panelContent s = some (renderInfo p) ∧
      elemAt s.phoneModels (k % data.length) = some { scene := { visible := true }, info := p } ∧
      (∀ j m, elemAt s.phoneModels j = some m →
        (m.scene.visible = true ↔ j = k % data.length)) := by
  obtain ⟨s0, h0, hq0⟩ := showsRecord_afterLoads data events hne hpaths hall hco
  obtain ⟨s, hs, hl, hc, ⟨p, hp, hinfo⟩, hslots⟩ := showsRecord_clicks data k s0 hq0
  refine ⟨s, p, by rw [afterClicks_eq data events k s0 h0, hs], hp, hc, hinfo,
    by simp [panelContent, hinfo], ?_, ?_⟩
  · rw [hslots _ p hp]
    simp
  · intro j m hm
    have hj : j < data.length := by
      rw [← hl]
      exact lt_length_of_elemAt _ _ _ hm
    rw [hslots j _ (List.getElem?_eq_getElem hj)] at hm
    cases hm
    simp

/-- Witness of C7: records A and B, B loading first.  The panel shows A after the last
load, B after one click, and after a second click, the instance `k = 2` of the theorem,
A again. -/
theorem C7_panel_and_model_follow_k_mod_n_witness :
    (∃ s, afterClicks [phoneNamed "A" (some "a.glb"), phoneNamed "B" (some "b.glb")]
        [(1, Outcome.loaded), (0, Outcome.loaded)] 0 = Except.ok s ∧
      panelContent s = some (renderInfo (phoneNamed "A" (some "a.glb")))) ∧
    (∃ s, afterClicks [phoneNamed "A" (some "a.glb"), phoneNamed "B" (some "b.glb")]
        [(1, Outcome.loaded), (0, Outcome.loaded)] 1 = Except.ok s ∧
      panelContent s = some (renderInfo (phoneNamed "B" (some "b.glb")))) ∧
    ∃ s p, afterClicks [phoneNamed "A" (some "a.glb"), phoneNamed "B" (some "b.glb")]
        [(1, Outcome.loaded), (0, Outcome.loaded)] 2 = Except.ok s ∧
      [phoneNamed "A" (some "a.glb"), phoneNamed "B" (some "b.glb")][2 % 2]? = some p ∧
      s.currentModelIndex = 2 % 2 ∧
      s.infoContainers = [renderInfo p] ∧
      panelContent s = some (renderInfo p) ∧
      elemAt s.phoneModels (2 % 2) = some { scene := { visible := true }, info := p } ∧
      (∀ j m, elemAt s.phoneModels j = some m → (m.scene.visible = true ↔ j = 2 % 2)) :=
  ⟨⟨_, rfl, rfl⟩, ⟨_, rfl, rfl⟩,
    C7_panel_and_model_follow_k_mod_n
      [phoneNamed "A" (some "a.glb"), phoneNamed "B" (some "b.glb")]
      [(1, Outcome.loaded), (0, Outcome.loaded)] 2 (by simp) (by decide) (by decide)
      (by decide)⟩

/-! ## Rescaling and recentring -/

theorem sqrt_scaled (s a b c : ℝ) (hs : 0 ≤ s) :
    Real.sqrt (s * a * (s * a) + s * b * (s * b) + s * c * (s * c))
      = s * Real.sqrt (a * a + b * b + c * c) := by
  have h : s * a * (s * a) + s * b * (s * b) + s * c * (s * c)
      = s ^ 2 * (a * a + b * b + c * c) := by ring
  rw [h, Real.sqrt_mul (sq_nonneg s), Real.sqrt_sq hs]

theorem box_of_identityRoot (o : Object3D) (hid : IdentityRoot o) :
    Box3.setFromObject o = o.geometry := by
  obtain ⟨hp, hsc⟩ := hid
  obtain ⟨pos, sc, g⟩ := o
  simp only at hp hsc
  subst hp hsc
  unfold Box3.setFromObject
  split
  · rfl
  · rename_i hne
    unfold Box3.isEmpty at hne
    push_neg at hne
    obtain ⟨hx, hy, hz⟩ := hne
    obtain ⟨⟨a1, a2, a3⟩, ⟨b1, b2, b3⟩⟩ := g
    simp only at hx hy hz
    simp [hx, hy, hz]

theorem nonempty_of_size_ne_zero (b : Box3) (h : (b.getSize).length ≠ 0) : ¬ b.isEmpty := by
  intro he
  apply h
  simp [Box3.getSize, he, Vector3.length]

/-- The box of a scene with non-empty geometry whose root has the same positive scale `s`
on the three axes. -/
theorem box_of_uniform_scale (p : Vector3) (s : ℝ) (g : Box3) (hs : 0 < s) (hg : ¬ g.isEmpty) :
    Box3.setFromObject { position := p, scale := { x := s, y := s, z := s }, geometry := g } =
      { min := { x := s * g.min.x + p.x, y := s * g.min.y + p.y, z := s * g.min.z + p.z },
        max := { x := s * g.max.x + p.x, y := s * g.max.y + p.y, z := s * g.max.z + p.z } } := by
  have hg2 := hg
  unfold Box3.isEmpty at hg2
  push_neg at hg2
  obtain ⟨hx, hy, hz⟩ := hg2
  have hx2 := mul_le_mul_of_nonneg_left hx hs.le
  have hy2 := mul_le_mul_of_nonneg_left hy hs.le
  have hz2 := mul_le_mul_of_nonneg_left hz hs.le
  simp only [Box3.setFromObject, if_neg hg, min_eq_left hx2, min_eq_left hy2, min_eq_left hz2,
    max_eq_right hx2, max_eq_right hy2, max_eq_right hz2]

theorem getSize_of_nonempty (b : Box3) (h : ¬ b.isEmpty) :
    b.getSize =
      { x := b.max.x - b.min.x, y := b.max.y - b.min.y, z := b.max.z - b.min.z } := by
  unfold Box3.getSize
  rw [if_neg h]

theorem getCenter_of_nonempty (b : Box3) (h : ¬ b.isEmpty) :
    b.getCenter =
      { x := (b.min.x + b.max.x) * 0.5, y := (b.min.y + b.max.y) * 0.5,
        z := (b.min.z + b.max.z) * 0.5 } := by
  unfold Box3.getCenter
  rw [if_neg h]
  rfl

/-- A scene with non-empty geometry, the same positive scale `s` on the three axes and
its position moved from the origin by `s` times the centre of the geometry: the diagonal
of its box is `s` times the diagonal of the geometry, and the box is centred at the
origin. -/
theorem scaled_and_recentred (s : ℝ) (g : Box3) (hs : 0 < s) (hg : ¬ g.isEmpty) :
    ((Box3.setFromObject
        { position := Vector3.sub { x := 0, y := 0, z := 0 } (g.getCenter.multiplyScalar s),
          scale := { x := s, y := s, z := s }, geometry := g }).getSize).length
      = s * (g.getSize).length ∧
    (Box3.setFromObject
        { position := Vector3.sub { x := 0, y := 0, z := 0 } (g.getCenter.multiplyScalar s),
          scale := { x := s, y := s, z := s }, geometry := g }).getCenter
      = { x := 0, y := 0, z := 0 } := by
  have hbox := box_of_uniform_scale
    (Vector3.sub { x := 0, y := 0, z := 0 } (g.getCenter.multiplyScalar s)) s g hs hg
  have hg2 := hg
  unfold Box3.isEmpty at hg2
  push_neg at hg2
  obtain ⟨hx, hy, hz⟩ := hg2
  have hx2 := mul_le_mul_of_nonneg_left hx hs.le
  have hy2 := mul_le_mul_of_nonneg_left hy hs.le
  have hz2 := mul_le_mul_of_nonneg_left hz hs.le
  have hne : ¬ (Box3.setFromObject
      { position := Vector3.sub { x := 0, y := 0, z := 0 } (g.getCenter.multiplyScalar s),
        scale := { x := s, y := s, z := s }, geometry := g }).isEmpty := by
    rw [hbox]
    unfold Box3.isEmpty
    push_neg
    simp only
    exact ⟨by linarith, by linarith, by linarith⟩
  constructor
  · rw [getSize_of_nonempty _ hne, getSize_of_nonempty _ hg, hbox]
    unfold Vector3.length
    simp only
    rw [← sqrt_scaled s _ _ _ hs.le]
    congr 1
    ring
  · rw [getCenter_of_nonempty _ hne, hbox, getCenter_of_nonempty _ hg]
    simp only [Vector3.multiplyScalar, Vector3.sub, Vector3.mk.injEq]
    exact ⟨by ring, by ring, by ring⟩

/-- The normalisation on a scene with identity root and non-degenerate box. -/
theorem normalizeScene_spec (o : Object3D) (hid : IdentityRoot o)
    (hsize : ((Box3.setFromObject o).getSize).length ≠ 0) :
    ∃ o2, normalizeScene o = some o2 ∧
      o2.scale =
        { x := 6 / ((Box3.setFromObject o).getSize).length,
          y := 6 / ((Box3.setFromObject o).getSize).length,
          z := 6 / ((Box3.setFromObject o).getSize).length } ∧
      ((Box3.setFromObject o2).getSize).length = 6 ∧
      (Box3.setFromObject o2).getCenter = { x := 0, y := 0, z := 0 } := by
  have hbox := box_of_identityRoot o hid
  rw [hbox] at hsize ⊢
  have hne := nonempty_of_size_ne_zero _ hsize
  have hpos : 0 < (o.geometry.getSize).length :=
    lt_of_le_of_ne (Real.sqrt_nonneg _) (Ne.symm hsize)
  have hs : 0 < 6 / (o.geometry.getSize).length := div_pos (by norm_num) hpos
  obtain ⟨h1, h2⟩ := scaled_and_recentred _ o.geometry hs hne
  obtain ⟨hp, _⟩ := hid
  refine ⟨{ position := o.position.sub
              (o.geometry.getCenter.multiplyScalar (6 / (o.geometry.getSize).length)),
            scale := { x := 6 / (o.geometry.getSize).length,
                       y := 6 / (o.geometry.getSize).length,
                       z := 6 / (o.geometry.getSize).length },
            geometry := o.geometry }, ?_, rfl, ?_, ?_⟩
  · simp [normalizeScene, scaleFactorOf, hbox, hsize]
  · rw [hp, h1]
    exact div_mul_cancel₀ 6 hsize
  · rw [hp, h2]

theorem brickAsset_size : ((Box3.setFromObject brickAsset).getSize).length = 7 := by
  have hid : IdentityRoot brickAsset := ⟨rfl, rfl⟩
  have hne : ¬ brickAsset.geometry.isEmpty := by
    simp [Box3.isEmpty, brickAsset]
  rw [box_of_identityRoot _ hid, getSize_of_nonempty _ hne]
  simp only [Vector3.length, brickAsset]
  rw [show ((2 : ℝ) - 0) * (2 - 0) + (3 - 0) * (3 - 0) + (6 - 0) * (6 - 0) = 7 ^ 2 by norm_num]
  exact Real.sqrt_sq (by norm_num)

theorem brickAsset_size_ne_zero : ((Box3.setFromObject brickAsset).getSize).length ≠ 0 := by
  rw [brickAsset_size]
  norm_num

theorem pointAsset_size : ((Box3.setFromObject pointAsset).getSize).length = 0 := by
  have hid : IdentityRoot pointAsset := ⟨rfl, rfl⟩
  have hne : ¬ pointAsset.geometry.isEmpty := by
    simp [Box3.isEmpty, pointAsset]
  rw [box_of_identityRoot _ hid, getSize_of_nonempty _ hne]
  simp [Vector3.length, pointAsset]

/-- C8 (as the code has it): for a loaded scene with root at identity transform whose
bounding box has a non-zero diagonal, the callback sets the one scale factor
`6 / |diag(B)|` on all three axes, and the diagonal of the bounding box of the scaled
scene is 6. -/
theorem C8_scaled_diagonal_is_six (o : Object3D) (hid : IdentityRoot o)
    (hsize : ((Box3.setFromObject o).getSize).length ≠ 0) :
    ∃ o2, normalizeScene o = some o2 ∧
      scaleFactorOf ((Box3.setFromObject o).getSize).length
        = some (6 / ((Box3.setFromObject o).getSize).length) ∧
      o2.scale =
        { x := 6 / ((Box3.setFromObject o).getSize).length,
          y := 6 / ((Box3.setFromObject o).getSize).length,
          z := 6 / ((Box3.setFromObject o).getSize).length } ∧
      ((Box3.setFromObject o2).getSize).length = 6 := by
  obtain ⟨o2, h1, h2, h3, _⟩ := normalizeScene_spec o hid hsize
  exact ⟨o2, h1, by simp [scaleFactorOf, hsize], h2, h3⟩

/-- Witness of C8: the box from (0, 0, 0) to (2, 3, 6), of diagonal 7. -/
theorem C8_scaled_diagonal_is_six_witness :
    IdentityRoot brickAsset ∧ ((Box3.setFromObject brickAsset).getSize).length ≠ 0 ∧
    ∃ o2, normalizeScene brickAsset = some o2 ∧
      scaleFactorOf ((Box3.setFromObject brickAsset).getSize).length
        = some (6 / ((Box3.setFromObject brickAsset).getSize).length) ∧
      o2.scale =
        { x := 6 / ((Box3.setFromObject brickAsset).getSize).length,
          y := 6 / ((Box3.setFromObject brickAsset).getSize).length,
          z := 6 / ((Box3.setFromObject brickAsset).getSize).length } ∧
      ((Box3.setFromObject o2).getSize).length = 6 :=
  ⟨⟨rfl, rfl⟩, brickAsset_size_ne_zero,
    C8_scaled_diagonal_is_six brickAsset ⟨rfl, rfl⟩ brickAsset_size_ne_zero⟩

/-- C8 as stated fails: a scene whose geometry is a single point has a bounding box of
diagonal 0, the quotient `6 / 0` is no real number, and whatever scale and position the
root is given, the diagonal of its bounding box stays 0 and never is 6. -/
theorem C8_point_asset_cannot_reach_six :
    IdentityRoot pointAsset ∧
    ((Box3.setFromObject pointAsset).getSize).length = 0 ∧
    scaleFactorOf ((Box3.setFromObject pointAsset).getSize).length = none ∧
    normalizeScene pointAsset = none ∧
    ∀ (s : ℝ) (p : Vector3),
      ((Box3.setFromObject
        { position := p, scale := { x := s, y := s, z := s },
          geometry := pointAsset.geometry }).getSize).length ≠ 6 := by
  refine ⟨⟨rfl, rfl⟩, pointAsset_size, ?_, ?_, ?_⟩
  · simp [scaleFactorOf, pointAsset_size]
  · simp [normalizeScene, scaleFactorOf, pointAsset_size]
  · intro s p
    have hne : ¬ pointAsset.geometry.isEmpty := by
      simp [Box3.isEmpty, pointAsset]
    have hz : ((Box3.setFromObject
        { position := p, scale := { x := s, y := s, z := s },
          geometry := pointAsset.geometry }).getSize).length = 0 := by
      have hbox : Box3.setFromObject
          { position := p, scale := { x := s, y := s, z := s },
            geometry := pointAsset.geometry } =
          { min := { x := s + p.x, y := s + p.y, z := s + p.z },
            max := { x := s + p.x, y := s + p.y, z := s + p.z } } := by
        unfold Box3.setFromObject
        rw [if_neg hne]
        simp [pointAsset]
      rw [hbox]
      simp [Box3.getSize, Box3.isEmpty, Vector3.length]
    rw [hz]
    norm_num

/-- C9 (as the code has it): for a loaded scene with root at identity transform whose
bounding box has a non-zero diagonal, centre `c`, and scale factor `s` as computed by the
callback, the callback sets the scale `s` on the three axes and subtracts `s * c` from the
position, and the bounding box of the scene is then centred at the origin. -/
theorem C9_recentred_box_is_at_origin (o : Object3D) (hid : IdentityRoot o)
    (hsize : ((Box3.setFromObject o).getSize).length ≠ 0) :
    ∃ o2 s, normalizeScene o = some o2 ∧
      scaleFactorOf ((Box3.setFromObject o).getSize).length = some s ∧
      o2.scale = { x := s, y := s, z := s } ∧
      o2.position =
        o.position.sub (((Box3.setFromObject o).getCenter).multiplyScalar s) ∧
      (Box3.setFromObject o2).getCenter = { x := 0, y := 0, z := 0 } := by
  obtain ⟨o2, h1, h2, _, h4⟩ := normalizeScene_spec o hid hsize
  refine ⟨o2, 6 / ((Box3.setFromObject o).getSize).length, h1,
    by simp [scaleFactorOf, hsize], h2, ?_, h4⟩
  simp only [normalizeScene, scaleFactorOf, if_neg hsize, Option.some.injEq] at h1
  rw [← h1]

/-- Witness of C9: the box from (0, 0, 0) to (2, 3, 6). -/
theorem C9_recentred_box_is_at_origin_witness :
    IdentityRoot brickAsset ∧ ((Box3.setFromObject brickAsset).getSize).length ≠ 0 ∧
    ∃ o2 s, normalizeScene brickAsset = some o2 ∧
      scaleFactorOf ((Box3.setFromObject brickAsset).getSize).length = some s ∧
      o2.scale = { x := s, y := s, z := s } ∧
      o2.position =
        brickAsset.position.sub (((Box3.setFromObject brickAsset).getCenter).multiplyScalar s) ∧
      (Box3.setFromObject o2).getCenter = { x := 0, y := 0, z := 0 } :=
  ⟨⟨rfl, rfl⟩, brickAsset_size_ne_zero,
    C9_recentred_box_is_at_origin brickAsset ⟨rfl, rfl⟩ brickAsset_size_ne_zero⟩

/-- C9 as stated fails: for a scene whose geometry is the single point (1, 1, 1) the
bounding box has diagonal 0 and the callback computes no real scale factor (`6 / 0`), so
there is no scaled and recentred scene with its box centred at the origin. -/
theorem C9_point_asset_has_no_scale_factor :
    IdentityRoot pointAsset ∧
    ((Box3.setFromObject pointAsset).getSize).length = 0 ∧
    ¬ ∃ o2 s, normalizeScene pointAsset = some o2 ∧
      scaleFactorOf ((Box3.setFromObject pointAsset).getSize).length = some s ∧
      (Box3.setFromObject o2).getCenter = { x := 0, y := 0, z := 0 } := by
  refine ⟨⟨rfl, rfl⟩, pointAsset_size, ?_⟩
  rintro ⟨o2, s, _, hs, _⟩
  simp [scaleFactorOf, pointAsset_size] at hs

end PhoneShow
